import Mathlib

/-!
# Verification of the gamecube-tools conversion engines

A shallow embedding in Lean 4 of the two conversion engines of the
`gamecube-tools` repository:

* `src/elf2rel.rs` — converts a relocatable PowerPC ELF object into a
  GameCube REL module (symbol-map parsing, section layout, relocation
  collection, static patching, relocation-stream emission, header writing);
* `src/gcipack.rs` — packs a payload into a GameCube memory-card GCI
  container.

Machine integers are modelled as `Nat` with explicit `% 2^w` wherever the
Rust code performs a narrowing cast or wrapping arithmetic.  Fallible Rust
code (`anyhow::Result`, `Result<_, GciPackError>`) is modelled with
`Except`/`Outcome`; Rust `panic!`/`unwrap` aborts are modelled by the
distinguished `Outcome.panicked` constructor so that abort reachability can
be stated.  Byte buffers (`Vec<u8>`) are `List Nat` with every element kept
below 256 by construction of the serializers.
-/

set_option maxRecDepth 8000

namespace GamecubeTools

/-- Result of running a piece of Rust code that may either return a value,
return an error (`anyhow::bail!` / `Err`), or abort the process
(`panic!` / `Option::unwrap` / out-of-bounds slice indexing). -/
inductive Outcome (α : Type) where
  | ok (val : α)
  | error (msg : String)
  | panicked (msg : String)
deriving DecidableEq

/-- Returns `true` iff the outcome is `ok`. -/
def Outcome.isOk {α : Type} : Outcome α → Bool
  | .ok _ => true
  | _ => false

/-! ## Byte-level helpers (zerocopy big-endian fields) -/

/-- Big-endian serialization of a `u16` (`zerocopy::big_endian::U16`).
Values are reduced mod 2^16 exactly as a narrowing store would. -/
def be16 (n : Nat) : List Nat := [n / 2^8 % 2^8, n % 2^8]

/-- Big-endian serialization of a `u32` (`zerocopy::big_endian::U32`). -/
def be32 (n : Nat) : List Nat :=
  [n / 2^24 % 2^8, n / 2^16 % 2^8, n / 2^8 % 2^8, n % 2^8]

/-- The `u16` value denoted by two big-endian bytes. -/
def decodeBe16 (b0 b1 : Nat) : Nat := 2^8 * b0 + b1

/-- The `u32` value denoted by four big-endian bytes (the unsigned
bit-pattern that `i32::from_be_bytes` reads in `statically_apply_relocation`). -/
def decodeBe32 (bytes : List Nat) : Nat :=
  match bytes with
  | [b0, b1, b2, b3] => 2^24 * b0 + 2^16 * b1 + 2^8 * b2 + b3
  | _ => 0

/-- Overwrite `bytes.length` bytes of `l` starting at `off`
(Rust `copy_from_slice` into `&mut l[off..off + bytes.len()]`). -/
def listBlit (l : List Nat) (off : Nat) (bytes : List Nat) : List Nat :=
  l.take off ++ bytes ++ l.drop (off + bytes.length)

/-- Rust `usize::next_multiple_of` for a positive alignment. -/
def nextMultipleOf (len a : Nat) : Nat := (len + a - 1) / a * a

/-- Wrapping `u32` subtraction `a - b` (release-mode Rust semantics on
`u32` operands). -/
def sub32 (a b : Nat) : Nat := (a % 2^32 + (2^32 - b % 2^32)) % 2^32

/-- The low 32 bits of an integer: the `u32` with the same bit pattern as
`x as u32` for any wrapped integer result `x`. -/
def u32OfInt (x : Int) : Nat := (x % (2^32 : Int)).toNat

/-! ## Symbol map parser (`parse_symbol_map`)

The Rust parser takes a byte slice, checks it is UTF-8 and then works on
`&str`; the embedding starts from the decoded string.  The resulting
`HashMap<&str, u32>` is modelled as an association list on which `insert`
replaces any previous binding (last wins), matching `HashMap::insert`. -/

/-- Models `HashMap::insert`: replace any existing binding of `k`, add `(k, v)`. -/
def mapInsert (m : List (String × Nat)) (k : String) (v : Nat) : List (String × Nat) :=
  m.filter (fun p => p.1 ≠ k) ++ [(k, v)]

/-- Models `HashMap::get`. -/
def mapLookup (m : List (String × Nat)) (k : String) : Option Nat :=
  (m.find? (fun p => p.1 = k)).map (·.2)

/-- The characters Rust's `str::trim` removes: `char::is_whitespace`, i.e.
the Unicode `White_Space` property (U+0009..U+000D, U+0020, U+0085, U+00A0,
U+1680, U+2000..U+200A, U+2028, U+2029, U+202F, U+205F, U+3000). -/
def isWhitespaceChar (c : Char) : Bool :=
  let n := c.toNat
  n = 0x20 || (0x9 ≤ n && n ≤ 0xD) || n = 0x85 || n = 0xA0 || n = 0x1680 ||
    (0x2000 ≤ n && n ≤ 0x200A) || n = 0x2028 || n = 0x2029 || n = 0x202F ||
    n = 0x205F || n = 0x3000

/-- Rust `str::trim` on a character list: drop whitespace from both ends. -/
def trimChars (cs : List Char) : List Char :=
  ((cs.dropWhile isWhitespaceChar).reverse.dropWhile isWhitespaceChar).reverse

/-- Split a character list at every occurrence of `sep`
(Rust `str::split`, always yielding one more segment than separators). -/
def splitOnChar (sep : Char) : List Char → List (List Char)
  | [] => [[]]
  | c :: rest =>
    if c = sep then [] :: splitOnChar sep rest
    else
      match splitOnChar sep rest with
      | s :: ss => (c :: s) :: ss
      | [] => [[c]]

/-- Rust `str::lines`: split on `\n`, drop a final empty segment produced
by a trailing newline, strip one trailing `\r` from each line. -/
def rustLines (s : String) : List (List Char) :=
  let parts := splitOnChar '\n' s.toList
  let parts := if parts.getLast? = some [] then parts.dropLast else parts
  parts.map (fun l => if l.getLast? = some '\r' then l.dropLast else l)

/-- Rust `str::split_once`: split at the first occurrence of `sep`. -/
def splitOnceChar (sep : Char) : List Char → Option (List Char × List Char)
  | [] => none
  | c :: rest =>
    if c = sep then some ([], rest)
    else
      match splitOnceChar sep rest with
      | some (a, b) => some (c :: a, b)
      | none => none

/-- Value of one hexadecimal digit, if any. -/
def hexDigit? (c : Char) : Option Nat :=
  if '0' ≤ c ∧ c ≤ '9' then some (c.toNat - '0'.toNat)
  else if 'a' ≤ c ∧ c ≤ 'f' then some (c.toNat - 'a'.toNat + 10)
  else if 'A' ≤ c ∧ c ≤ 'F' then some (c.toNat - 'A'.toNat + 10)
  else none

/-- Accumulate one hex digit onto a partial `u32` value, failing (sticky)
on a non-digit or on `u32` overflow, as `u32::from_str_radix` does. -/
def hexStep (acc : Option Nat) (c : Char) : Option Nat :=
  match acc, hexDigit? c with
  | some a, some d => if a * 16 + d < 2^32 then some (a * 16 + d) else none
  | _, _ => none

/-- Rust `u32::from_str_radix(s, 16)`: optional leading `+`, then at least
one hex digit, no overflow. -/
def u32FromHexChars (cs : List Char) : Option Nat :=
  let digits := match cs with
    | '+' :: rest => rest
    | rest => rest
  if digits.isEmpty then none
  else digits.foldl hexStep (some 0)

/-- Loop body of `parse_symbol_map`, recursing over the remaining lines.
`lineNum` is the 0-based index of the head line (Rust `enumerate`). -/
def parseSymbolMapGo (lineNum : Nat) (lines : List (List Char))
    (map : List (String × Nat)) : Except String (List (String × Nat)) :=
  match lines with
  | [] => .ok map
  | line :: rest =>
    let line := trimChars line
    if line.isEmpty || ['/', '/'].isPrefixOf line then
      parseSymbolMapGo (lineNum + 1) rest map
    else
      match splitOnceChar ':' line with
      | none =>
        .error ("Invalid symbol mapping on line " ++ toString (lineNum + 1) ++ ": "
          ++ String.mk line)
      | some (addr, name) =>
        if name.isEmpty then
          .error ("Empty symbol name on line " ++ toString (lineNum + 1))
        else
          match u32FromHexChars (trimChars addr) with
          | none =>
            .error ("Failed to parse address on line " ++ toString (lineNum + 1) ++ ": "
              ++ String.mk addr)
          | some a => parseSymbolMapGo (lineNum + 1) rest (mapInsert map (String.mk name) a)

/-- Embeds `parse_symbol_map` from `src/elf2rel.rs` (after UTF-8 decoding). -/
def parse_symbol_map (s : String) : Except String (List (String × Nat)) :=
  parseSymbolMapGo 0 (rustLines s) []

/-! ### Declarative per-line description of the parser

The claim describes the parser line by line; the following definitions
follow that per-line description (skip / entry / failure with a 1-indexed
line number) and are then proved equivalent to `parse_symbol_map`.  Note the
inserted name is the raw remainder after the first `:`, not re-trimmed. -/

/-- What a single (0-indexed `n`-th) line contributes. -/
inductive LineAction where
  | skip
  | entry (name : String) (addr : Nat)
  | failed (msg : String)
deriving DecidableEq

/-- Per-line verdict: trim; skip blank and `//` lines; split at the first
colon; reject a missing colon, an empty name, or a bad hex address, citing
the 1-indexed line number; otherwise yield the `(name, addr)` entry. -/
def lineAction (n : Nat) (raw : List Char) : LineAction :=
  let line := trimChars raw
  if line.isEmpty || ['/', '/'].isPrefixOf line then .skip
  else
    match splitOnceChar ':' line with
    | none =>
      .failed ("Invalid symbol mapping on line " ++ toString (n + 1) ++ ": " ++ String.mk line)
    | some (addr, name) =>
      if name.isEmpty then .failed ("Empty symbol name on line " ++ toString (n + 1))
      else
        match u32FromHexChars (trimChars addr) with
        | none =>
          .failed ("Failed to parse address on line " ++ toString (n + 1) ++ ": "
            ++ String.mk addr)
        | some a => .entry (String.mk name) a

/-- Declarative parse: process the verdicts in order, first failure wins. -/
def declarativeParseGo (n : Nat) (lines : List (List Char))
    (map : List (String × Nat)) : Except String (List (String × Nat)) :=
  match lines with
  | [] => .ok map
  | raw :: rest =>
    match lineAction n raw with
    | .skip => declarativeParseGo (n + 1) rest map
    | .entry name a => declarativeParseGo (n + 1) rest (mapInsert map name a)
    | .failed msg => .error msg

/-- The parser the claim describes (with the untrimmed name), as a
stand-alone declarative definition. -/
def declarativeParse (s : String) : Except String (List (String × Nat)) :=
  declarativeParseGo 0 (rustLines s) []

theorem parseSymbolMapGo_eq_declarativeGo (lines : List (List Char)) :
    ∀ (n : Nat) (map : List (String × Nat)),
      parseSymbolMapGo n lines map = declarativeParseGo n lines map := by
  induction lines with
  | nil => intro n map; rfl
  | cons raw rest ih =>
    intro n map
    unfold parseSymbolMapGo declarativeParseGo lineAction
    by_cases hskip :
        ((trimChars raw).isEmpty || ['/', '/'].isPrefixOf (trimChars raw)) = true
    · simp [hskip, ih]
    · simp only [hskip]
      cases hsplit : splitOnceChar ':' (trimChars raw) with
      | none => simp
      | some p =>
        obtain ⟨addr, name⟩ := p
        by_cases hname : name.isEmpty = true
        · simp [hname]
        · simp only [hname]
          cases hhex : u32FromHexChars (trimChars addr) with
          | none => simp
          | some a => simp [ih]

/-! ## ELF view (input data model)

The `object` crate's parsed view of the input ELF, restricted to what
`elf2rel.rs` consumes: sections (index, name, kind, alignment, size, data,
relocation entries) and symbols (name, owning section or undefined,
address).  An unreadable section name (`section.name()` returning `Err`,
e.g. non-UTF-8) is modelled as `none`; a fallible `section.data()` is an
`Except`. -/

/-- The section kinds `write_sections` distinguishes: `kind().is_bss()`,
`kind() == SectionKind::Text`, anything else. -/
inductive SectKind where
  | text
  | bss
  | other
deriving DecidableEq

/-- Models `object::RelocationTarget`: a symbol target or something else. -/
inductive RelocTarget where
  | symbolIdx (idx : Nat)
  | nonSymbol
deriving DecidableEq

/-- Models `object::RelocationFlags`: ELF flags carrying `r_type`, or non-ELF. -/
inductive RelocFlags where
  | elf (r_type : Nat)
  | nonElf
deriving DecidableEq

/-- One ELF relocation entry of a section, as iterated by
`src_section.relocations()`.  `addend` is the `i64` ELF addend. -/
structure ElfRawRelocation where
  src_offset : Nat
  target : RelocTarget
  flags : RelocFlags
  addend : Int
deriving DecidableEq

instance exceptDecEq {ε α : Type} [DecidableEq ε] [DecidableEq α] :
    DecidableEq (Except ε α) := fun x y =>
  match x, y with
  | .ok a, .ok b => decidable_of_iff (a = b) (by simp)
  | .error e, .error f => decidable_of_iff (e = f) (by simp)
  | .ok _, .error _ => isFalse (by simp)
  | .error _, .ok _ => isFalse (by simp)

/-- One section of the parsed ELF. -/
structure ElfSection where
  index : Nat
  name : Option String
  kind : SectKind
  align : Nat
  size : Nat
  data : Except String (List Nat)
  relocations : List ElfRawRelocation
deriving DecidableEq

/-- Models `object::SymbolSection`: defined in a section, undefined, or another
kind (absolute, common, ...). -/
inductive SymSection where
  | defined (idx : Nat)
  | undefined
  | otherKind
deriving DecidableEq

/-- One symbol of the parsed ELF symbol table. -/
structure ElfSymbol where
  name : String
  sectionIdx : SymSection
  address : Nat
deriving DecidableEq

/-- The parsed ELF file: `parse_elf` has already checked architecture,
endianness and format, so only sections and symbols remain relevant.
Symbols are indexed by position (`symbol_by_index`). -/
structure ElfFile where
  sections : List ElfSection
  symbols : List ElfSymbol
deriving DecidableEq

/-- Models `Symbol::section_index()`: `some` iff the symbol has a defining
section. -/
def ElfSymbol.sectionIndexOpt (s : ElfSymbol) : Option Nat :=
  match s.sectionIdx with
  | .defined idx => some idx
  | _ => none

/-- Models `File::symbol_by_name`: the first symbol with the given name. -/
def findSymbol (f : ElfFile) (name : String) : Option ElfSymbol :=
  f.symbols.find? (fun s => s.name = name)

/-! ## REL data model -/

/-- REL format versions (`RelVersion`). -/
inductive RelVersion where
  | V1
  | V2
  | V3
deriving DecidableEq

/-- The numeric code of a version (`u8::from`). -/
def relVersionCode : RelVersion → Nat
  | .V1 => 1
  | .V2 => 2
  | .V3 => 3

/-- The `RelVersion` ordering used by `rel_version >= RelVersion::V2` etc. -/
def relVersionAtLeast (v w : RelVersion) : Bool :=
  relVersionCode w ≤ relVersionCode v

/-- The relocation type tags recognized by the converter
(`RelocationType` in `src/elf2rel.rs`). -/
inductive RelocationType where
  | PpcNone
  | PpcAddr32
  | PpcAddr24
  | PpcAddr16
  | PpcAddr16Lo
  | PpcAddr16Hi
  | PpcAddr16Ha
  | PpcAddr14
  | PpcAddr14BrTaken
  | PpcAddr14BrNkTaken
  | PpcRel24
  | PpcRel14
  | PpcRel32
  | DolphinNop
  | DolphinSection
  | DolphinEnd
deriving DecidableEq

/-- Embeds `u8::from(RelocationType)` (the `IntoPrimitive` representation). -/
def relocationTypeCode : RelocationType → Nat
  | .PpcNone => 0
  | .PpcAddr32 => 1
  | .PpcAddr24 => 2
  | .PpcAddr16 => 3
  | .PpcAddr16Lo => 4
  | .PpcAddr16Hi => 5
  | .PpcAddr16Ha => 6
  | .PpcAddr14 => 7
  | .PpcAddr14BrTaken => 8
  | .PpcAddr14BrNkTaken => 9
  | .PpcRel24 => 10
  | .PpcRel14 => 11
  | .PpcRel32 => 26
  | .DolphinNop => 201
  | .DolphinSection => 202
  | .DolphinEnd => 203

/-- Embeds `RelocationType::try_from(u8)` (the `TryFromPrimitive` direction). -/
def relocationTypeFromCode (n : Nat) : Option RelocationType :=
  if n = 0 then some .PpcNone
  else if n = 1 then some .PpcAddr32
  else if n = 2 then some .PpcAddr24
  else if n = 3 then some .PpcAddr16
  else if n = 4 then some .PpcAddr16Lo
  else if n = 5 then some .PpcAddr16Hi
  else if n = 6 then some .PpcAddr16Ha
  else if n = 7 then some .PpcAddr14
  else if n = 8 then some .PpcAddr14BrTaken
  else if n = 9 then some .PpcAddr14BrNkTaken
  else if n = 10 then some .PpcRel24
  else if n = 11 then some .PpcRel14
  else if n = 26 then some .PpcRel32
  else if n = 201 then some .DolphinNop
  else if n = 202 then some .DolphinSection
  else if n = 203 then some .DolphinEnd
  else none

/-- The internal collected-relocation record (`ElfRelocation`).
All integer fields are `u32`-valued by construction in
`extract_relocations`. -/
structure ElfRelocation where
  src_section : Nat
  src_offset : Nat
  dest_module : Nat
  dest_section : Nat
  addend : Nat
  type_ : RelocationType
deriving DecidableEq

/-- The 8-byte encoded relocation record (`struct Relocation`).
`type_` and `sect` hold the `u8` values stored in the record
(the Rust field `section` is a Lean keyword, hence `sect`). -/
structure Relocation where
  offset : Nat
  type_ : Nat
  sect : Nat
  addend : Nat
deriving DecidableEq

/-- Embeds `Relocation::as_bytes()` (zerocopy, big-endian fields). -/
def Relocation.asBytes (r : Relocation) : List Nat :=
  be16 r.offset ++ [r.type_ % 2^8, r.sect % 2^8] ++ be32 r.addend

/-- The 8-byte import table entry (`struct ImportInfo`). -/
structure ImportInfo where
  id : Nat
  offset : Nat
deriving DecidableEq

/-- Embeds `ImportInfo::as_bytes()`. -/
def ImportInfo.asBytes (i : ImportInfo) : List Nat := be32 i.id ++ be32 i.offset

/-- Embeds `SectionInfo::as_bytes()` for an (offset, size) section-info entry. -/
def sectionInfoBytes (offset size : Nat) : List Nat := be32 offset ++ be32 size

/-- Layout statistics produced by `write_sections` (`SectionStats`).
`section_offsets` is the `HashMap<SectionIndex, usize>` as an association
list keyed by section index. -/
structure SectionStats where
  total_bss_size : Nat
  max_align : Nat
  max_bss_align : Nat
  section_info_offset : Nat
  section_offsets : List (Nat × Nat)
deriving DecidableEq

/-- Embeds `HashMap::get` on the section-offset map. -/
def lookupSec (m : List (Nat × Nat)) (k : Nat) : Option Nat :=
  (m.find? (fun p => p.1 = k)).map (·.2)

/-- Statistics produced by `write_relocations` (`RelocationStats`). -/
structure RelocationStats where
  relocations_offset : Nat
  import_info_offset : Nat
  import_info_size : Nat
deriving DecidableEq

/-! ## Section writer (`write_sections`) -/

/-- Embeds `VALID_REL_SECTIONS`. -/
def validRelSections : List String :=
  [".init", ".text", ".ctors", ".dtors", ".rodata", ".data", ".bss"]

/-- Rust `str::starts_with` (on the underlying character sequences). -/
def strStartsWith (s pre : String) : Bool := pre.toList.isPrefixOf s.toList

/-- The section-selection rule: some valid name matches the section's name
exactly or as a `name.`-prefix; an unreadable name (`Err`) never matches
(`section.name().map_or(false, ...)`). -/
def validSectionName (name : Option String) : Bool :=
  validRelSections.any (fun cand =>
    match name with
    | none => false
    | some n => n = cand || strStartsWith n (cand ++ "."))

/-- Intermediate state of the `write_sections` loop. -/
structure SectionWriterState where
  rel : List Nat
  sectionInfoBuffer : List Nat
  sectionOffsets : List (Nat × Nat)
  totalBssSize : Nat
  maxAlign : Nat
  maxBssAlign : Nat
deriving DecidableEq

/-- One iteration of the `write_sections` loop over `elf.sections()`. -/
def writeSectionStep (st : SectionWriterState) (s : ElfSection) :
    Except String SectionWriterState :=
  if validSectionName s.name then
    if s.kind = SectKind.bss then
      -- Included BSS section: no bytes are written
      .ok { st with
        maxBssAlign := max st.maxBssAlign s.align,
        totalBssSize := st.totalBssSize + s.size,
        sectionInfoBuffer := st.sectionInfoBuffer ++ sectionInfoBytes 0 (s.size % 2^32) }
    else
      -- Included non-BSS section
      let a := max s.align 2
      let rel := st.rel ++ List.replicate (nextMultipleOf st.rel.length a - st.rel.length) 0
      let encoded_offset := if s.kind = SectKind.text then rel.length ||| 1 else rel.length
      match s.data with
      | .error e => .error e
      | .ok bytes =>
        .ok { st with
          rel := rel ++ bytes,
          maxAlign := max st.maxAlign a,
          sectionOffsets := st.sectionOffsets ++ [(s.index, rel.length)],
          sectionInfoBuffer :=
            st.sectionInfoBuffer ++ sectionInfoBytes (encoded_offset % 2^32) (s.size % 2^32) }
  else
    -- Excluded section: all-zero SectionInfo entry, nothing else
    .ok { st with sectionInfoBuffer := st.sectionInfoBuffer ++ sectionInfoBytes 0 0 }

/-- Fold of `writeSectionStep` over the section list. -/
def writeSectionsLoop (st : SectionWriterState) :
    List ElfSection → Except String SectionWriterState
  | [] => .ok st
  | s :: rest =>
    match writeSectionStep st s with
    | .ok st' => writeSectionsLoop st' rest
    | .error e => .error e

/-- Embeds `write_sections`: reserve one zero `SectionInfo` per section, lay the
sections out, then blit the accumulated section-info bytes over the
reservation. -/
def write_sections (elf : List ElfSection) (rel : List Nat) :
    Except String (List Nat × SectionStats) :=
  let section_info_offset := rel.length
  let rel := rel ++ List.replicate (8 * elf.length) 0
  match writeSectionsLoop ⟨rel, [], [], 0, 2, 2⟩ elf with
  | .error e => .error e
  | .ok st =>
    .ok (listBlit st.rel section_info_offset st.sectionInfoBuffer,
      { total_bss_size := st.totalBssSize % 2^32,
        max_align := st.maxAlign % 2^32,
        max_bss_align := st.maxBssAlign % 2^32,
        section_info_offset := section_info_offset % 2^32,
        section_offsets := st.sectionOffsets })

/-! ## Relocation collector (`extract_relocations`) -/

/-- Classify and collect the raw relocations of one included source section
(`for (src_offset, relocation) in src_section.relocations()`).
`symbol_by_index(...).unwrap()` aborts on a dangling symbol index, and a
non-ELF relocation-flags value hits the `panic!` in the source. -/
def extractFromSection (elf : ElfFile) (map : List (String × Nat)) (moduleId : Nat)
    (sIdx : Nat) : List ElfRawRelocation → Outcome (List ElfRelocation)
  | [] => .ok []
  | raw :: rest =>
    match raw.target with
    | .nonSymbol => .error "Unsupported relocation target"
    | .symbolIdx idx =>
      match elf.symbols.get? idx with
      | none => .panicked "called Option.unwrap on a None value"
      | some dest_symbol =>
        match raw.flags with
        | .nonElf => .panicked "Expected ELF relocation flags"
        | .elf r_type =>
          match relocationTypeFromCode (r_type % 2^8) with
          | none => .error ("Unsupported ELF relocation type: " ++ toString r_type)
          | some type_ =>
            match dest_symbol.sectionIdx with
            | .defined dest_section_idx =>
              -- Relocation against self
              match extractFromSection elf map moduleId sIdx rest with
              | .ok tail =>
                .ok (⟨sIdx, raw.src_offset % 2^32, moduleId, dest_section_idx,
                  u32OfInt ((dest_symbol.address : Int) + raw.addend), type_⟩ :: tail)
              | e => e
            | .undefined =>
              -- Relocation against external symbol
              match mapLookup map dest_symbol.name with
              | none =>
                .error ("External symbol not found in symbol map: " ++ dest_symbol.name)
              | some dest_symbol_addr =>
                match extractFromSection elf map moduleId sIdx rest with
                | .ok tail =>
                  .ok (⟨sIdx, raw.src_offset % 2^32, 0, 0,
                    u32OfInt ((dest_symbol_addr : Int) + raw.addend), type_⟩ :: tail)
                | e => e
            | .otherKind => .error "Unsupported symbol section"

/-- Outer loop of `extract_relocations` over the ELF sections, skipping
sections that were not written (`!section_offsets.contains_key`). -/
def extractLoop (elf : ElfFile) (map : List (String × Nat)) (moduleId : Nat)
    (sectionOffsets : List (Nat × Nat)) :
    List ElfSection → Outcome (List ElfRelocation)
  | [] => .ok []
  | s :: rest =>
    if (lookupSec sectionOffsets s.index).isSome then
      match extractFromSection elf map moduleId s.index s.relocations with
      | .ok here =>
        match extractLoop elf map moduleId sectionOffsets rest with
        | .ok tail => .ok (here ++ tail)
        | e => e
      | e => e
    else extractLoop elf map moduleId sectionOffsets rest

/-- The `Ord for ElfRelocation` comparator as a `≤` test: lexicographic on
`(dest_module, src_section, src_offset)`. -/
def relLe (a b : ElfRelocation) : Bool :=
  a.dest_module < b.dest_module ||
    (a.dest_module = b.dest_module &&
      (a.src_section < b.src_section ||
        (a.src_section = b.src_section && a.src_offset ≤ b.src_offset)))

/-- Insert into a list sorted by `relLe`, before the first element that is
not `≤` the inserted one. -/
def insertByRelLe (r : ElfRelocation) : List ElfRelocation → List ElfRelocation
  | [] => [r]
  | x :: xs => if relLe r x then r :: x :: xs else x :: insertByRelLe r xs

/-- The sort at the end of `extract_relocations`.  The source calls
`slice::sort_unstable`, which only promises an ordering by the comparator;
the model uses an insertion sort by that comparator (see the discussion of
the stability claim). -/
def sortRelocations : List ElfRelocation → List ElfRelocation
  | [] => []
  | r :: rest => insertByRelLe r (sortRelocations rest)

/-- Embeds `extract_relocations`. -/
def extract_relocations (elf : ElfFile) (symbolMap : String) (moduleId : Nat)
    (sectionOffsets : List (Nat × Nat)) : Outcome (List ElfRelocation) :=
  match parse_symbol_map symbolMap with
  | .error e => .error ("Failed to parse symbol map: " ++ e)
  | .ok map =>
    match extractLoop elf map moduleId sectionOffsets elf.sections with
    | .ok relocations => .ok (sortRelocations relocations)
    | e => e

/-! ## Static resolution (`statically_apply_relocation`) -/

/-- Embeds `statically_apply_relocation`: patch 4 bytes in place.  The two
`HashMap::get(..).unwrap()` calls and the slice `rel[src..src + 4]` abort
when they miss; the arithmetic is wrapping `i32` arithmetic carried on
unsigned 32-bit representatives. -/
def statically_apply_relocation (rel : List Nat) (sectionOffsets : List (Nat × Nat))
    (relocation : ElfRelocation) : Outcome (List Nat) :=
  match lookupSec sectionOffsets relocation.src_section with
  | none => .panicked "called Option.unwrap on a None value"
  | some srcBase =>
    let src_offset := srcBase + relocation.src_offset
    match lookupSec sectionOffsets relocation.dest_section with
    | none => .panicked "called Option.unwrap on a None value"
    | some destBase =>
      let delta := (destBase % 2^32 + relocation.addend % 2^32
        + (2^32 - src_offset % 2^32)) % 2^32
      if src_offset + 4 ≤ rel.length then
        let data := decodeBe32 ((rel.drop src_offset).take 4)
        match relocation.type_ with
        | .PpcRel24 =>
          .ok (listBlit rel src_offset (be32 (data ||| (delta &&& 0x03FFFFFC))))
        | .PpcRel32 => .ok (listBlit rel src_offset (be32 delta))
        | _ => .panicked "Unexpected relocation type"
      else .panicked "slice index out of range"

/-! ## Relocation writer (`write_relocations`) -/

/-- The import-counting loop at the top of `write_relocations`: number of
distinct consecutive `dest_module` runs, starting from a given
`last_module_id`. -/
def importCountAux (last : Option Nat) : List ElfRelocation → Nat
  | [] => 0
  | r :: rest =>
    if some r.dest_module ≠ last then 1 + importCountAux (some r.dest_module) rest
    else importCountAux last rest

/-- The `DolphinEnd` group terminator record. -/
def dolphinEndRec : Relocation := ⟨0, relocationTypeCode .DolphinEnd, 0, 0⟩

/-- The `DolphinSection` section-switch record. -/
def dolphinSectionRec (sectionIdx : Nat) : Relocation :=
  ⟨0, relocationTypeCode .DolphinSection, sectionIdx % 2^8, 0⟩

/-- The `DolphinNop` long-jump record. -/
def dolphinNopRec : Relocation := ⟨0xFFFF, relocationTypeCode .DolphinNop, 0, 0⟩

/-- State threaded through the emission loop of `write_relocations`.
`rel` is the output byte buffer; `stream` mirrors, record by record, the
relocation records appended to `rel` (each `rel.extend_from_slice(r.as_bytes())`
appends `r` to `stream` as well), so stream-level claims can be stated
without re-parsing bytes. -/
structure WriterState where
  rel : List Nat
  stream : List Relocation
  importInfoBuffer : List ImportInfo
  currentModuleId : Option Nat
  currentSectionIndex : Option Nat
  currentOffset : Nat
deriving DecidableEq

/-- Append one relocation record to the output buffer (and its mirror). -/
def pushRecord (st : WriterState) (r : Relocation) : WriterState :=
  { st with rel := st.rel ++ r.asBytes, stream := st.stream ++ [r] }

/-- The "Change module if necessary" block: terminate the previous group
with `DolphinEnd` (unless this is the first group), reset the section
tracking and append the group's `ImportInfo` (offset = current buffer
length, i.e. after the terminator). -/
def moduleSwitch (st : WriterState) (r : ElfRelocation) : WriterState :=
  if st.currentModuleId = some r.dest_module then st
  else
    let st1 := if st.currentModuleId.isSome then pushRecord st dolphinEndRec else st
    let st2 := { st1 with currentModuleId := some r.dest_module, currentSectionIndex := none }
    { st2 with
      importInfoBuffer := st2.importInfoBuffer ++ [⟨r.dest_module, st2.rel.length % 2^32⟩] }

/-- The "Change section if necessary" block: emit a `DolphinSection`
record and reset `current_offset`. -/
def sectionSwitch (st : WriterState) (r : ElfRelocation) : WriterState :=
  if st.currentSectionIndex = some r.src_section then st
  else
    pushRecord
      { st with currentSectionIndex := some r.src_section, currentOffset := 0 }
      (dolphinSectionRec r.src_section)

/-- One structural unfolding layer of the "Get into range of target" loop:
emit `DolphinNop {offset=0xFFFF}` records while `target_delta > 0xFFFF`,
subtracting `0xFFFF` each time.  `fuel` only bounds the iteration count so
that the recursion is structural; `emitNops` below supplies enough. -/
def emitNopsFuel : Nat → WriterState → Nat → WriterState × Nat
  | 0, st, target_delta => (st, target_delta)
  | fuel + 1, st, target_delta =>
    if target_delta > 0xFFFF then
      emitNopsFuel fuel (pushRecord st dolphinNopRec) (target_delta - 0xFFFF)
    else (st, target_delta)

/-- The "Get into range of target" loop.  Each iteration strictly decreases
`target_delta`, so `target_delta` itself is an upper bound on the number of
iterations and the fuel never runs out. -/
def emitNops (st : WriterState) (target_delta : Nat) : WriterState × Nat :=
  emitNopsFuel target_delta st target_delta

/-- The whitelist checked before a record is emitted
(`supported_relocation_type`). -/
def supportedRelocationType : RelocationType → Bool
  | .PpcNone | .PpcAddr32 | .PpcAddr24 | .PpcAddr16 | .PpcAddr16Lo | .PpcAddr16Hi
  | .PpcAddr16Ha | .PpcAddr14 | .PpcAddr14BrTaken | .PpcAddr14BrNkTaken
  | .PpcRel24 | .DolphinNop | .DolphinSection | .DolphinEnd => true
  | .PpcRel14 | .PpcRel32 => false

/-- Whether the main loop resolves a relocation statically instead of
emitting it (`dest_module == module_id` and a PC-relative type). -/
def isStaticallyResolved (moduleId : Nat) (r : ElfRelocation) : Bool :=
  r.dest_module = moduleId && (r.type_ = RelocationType.PpcRel24 || r.type_ = RelocationType.PpcRel32)

/-- The body of `for relocation in elf_relocations` in `write_relocations`. -/
def processOne (moduleId : Nat) (sectionOffsets : List (Nat × Nat))
    (st : WriterState) (r : ElfRelocation) : Outcome WriterState :=
  if isStaticallyResolved moduleId r then
    -- Resolve early if possible
    match statically_apply_relocation st.rel sectionOffsets r with
    | .ok rel' => .ok { st with rel := rel' }
    | .error e => .error e
    | .panicked msg => .panicked msg
  else
    let st := moduleSwitch st r
    let st := sectionSwitch st r
    let stDelta := emitNops st (sub32 r.src_offset st.currentOffset)
    if supportedRelocationType r.type_ then
      .ok (pushRecord { stDelta.1 with currentOffset := r.src_offset }
        ⟨stDelta.2 % 2^16, relocationTypeCode r.type_, r.dest_section % 2^8, r.addend % 2^32⟩)
    else
      .error ("Unsupported relocation type: " ++ toString (relocationTypeCode r.type_))

/-- The main emission loop of `write_relocations`. -/
def processList (moduleId : Nat) (sectionOffsets : List (Nat × Nat))
    (st : WriterState) : List ElfRelocation → Outcome WriterState
  | [] => .ok st
  | r :: rest =>
    match processOne moduleId sectionOffsets st r with
    | .ok st' => processList moduleId sectionOffsets st' rest
    | .error e => .error e
    | .panicked msg => .panicked msg

/-- Embeds `write_relocations`: reserve the (8-byte aligned) import table, emit
the stream, append the final `DolphinEnd`, then blit the accumulated
entries of the import table over the reservation.  Returns the final buffer, the
emitted record stream (mirror) and the statistics for the header. -/
def write_relocations (rel : List Nat) (elf_relocations : List ElfRelocation)
    (moduleId : Nat) (sectionOffsets : List (Nat × Nat)) :
    Outcome (List Nat × List Relocation × RelocationStats) :=
  -- Count modules
  let import_count := importCountAux none elf_relocations
  -- Write padding for imports
  let rel := rel ++ List.replicate (nextMultipleOf rel.length 8 - rel.length) 0
  -- Write dummy imports
  let import_info_offset := rel.length
  let rel := rel ++ List.replicate (8 * import_count) 0
  -- Write out relocations
  let relocation_offset := rel.length
  match processList moduleId sectionOffsets ⟨rel, [], [], none, none, 0⟩ elf_relocations with
  | .error e => .error e
  | .panicked msg => .panicked msg
  | .ok st =>
    let st := pushRecord st dolphinEndRec
    -- Write final import infos
    let importBytes := (st.importInfoBuffer.map ImportInfo.asBytes).flatten
    .ok (listBlit st.rel import_info_offset importBytes, st.stream,
      { relocations_offset := relocation_offset % 2^32,
        import_info_offset := import_info_offset % 2^32,
        import_info_size := importBytes.length % 2^32 })

/-! ## Header writer (`write_module_header`) and `elf2rel` -/

/-- The REL module header (`struct ModuleHeader`), field values as
computed by `write_module_header`. -/
structure ModuleHeader where
  id : Nat
  prev_link : Nat
  next_link : Nat
  section_count : Nat
  section_info_offset : Nat
  name_offset : Nat
  name_size : Nat
  version : Nat
  total_bss_size : Nat
  relocation_offset : Nat
  import_info_offset : Nat
  import_info_size : Nat
  prolog_section : Nat
  epilog_section : Nat
  unresolved_section : Nat
  pad : Nat
  prolog_offset : Nat
  epilog_offset : Nat
  unresolved_offset : Nat
deriving DecidableEq

/-- Embeds `ModuleHeader::as_bytes()` (0x40 bytes, big-endian fields). -/
def ModuleHeader.asBytes (h : ModuleHeader) : List Nat :=
  be32 h.id ++ be32 h.prev_link ++ be32 h.next_link ++ be32 h.section_count ++
  be32 h.section_info_offset ++ be32 h.name_offset ++ be32 h.name_size ++
  be32 h.version ++ be32 h.total_bss_size ++ be32 h.relocation_offset ++
  be32 h.import_info_offset ++ be32 h.import_info_size ++
  [h.prolog_section % 2^8, h.epilog_section % 2^8, h.unresolved_section % 2^8, h.pad % 2^8] ++
  be32 h.prolog_offset ++ be32 h.epilog_offset ++ be32 h.unresolved_offset

/-- Size of the reserved header prefix for a version: 0x40 bytes plus the
v2 addendum (8 bytes) from V2 and the v3 addendum (4 bytes) from V3. -/
def headerReservedSize (v : RelVersion) : Nat :=
  0x40 + (if relVersionAtLeast v .V2 then 8 else 0) + (if relVersionAtLeast v .V3 then 4 else 0)

/-- Embeds `write_module_header`: resolve `_prolog`/`_epilog`/`_unresolved`
(a missing symbol is an error; `section_index().unwrap()` on a symbol
without a defining section aborts) and assemble the header record. -/
def write_module_header (elf : ElfFile) (moduleId : Nat) (relVersion : RelVersion)
    (sectionStats : SectionStats) (relocationStats : RelocationStats) :
    Outcome ModuleHeader :=
  match findSymbol elf "_prolog" with
  | none => .error "Could not find symbol in ELF: _prolog"
  | some prolog =>
    match findSymbol elf "_epilog" with
    | none => .error "Could not find symbol in ELF: _epilog"
    | some epilog =>
      match findSymbol elf "_unresolved" with
      | none => .error "Could not find symbol in ELF: _unresolved"
      | some unresolved =>
        match prolog.sectionIndexOpt with
        | none => .panicked "called Option.unwrap on a None value"
        | some prologSection =>
          match epilog.sectionIndexOpt with
          | none => .panicked "called Option.unwrap on a None value"
          | some epilogSection =>
            match unresolved.sectionIndexOpt with
            | none => .panicked "called Option.unwrap on a None value"
            | some unresolvedSection =>
              .ok { id := moduleId % 2^32,
                    prev_link := 0,
                    next_link := 0,
                    section_count := elf.sections.length % 2^32,
                    section_info_offset := sectionStats.section_info_offset,
                    name_offset := 0,
                    name_size := 0,
                    version := relVersionCode relVersion,
                    total_bss_size := sectionStats.total_bss_size,
                    relocation_offset := relocationStats.relocations_offset,
                    import_info_offset := relocationStats.import_info_offset,
                    import_info_size := relocationStats.import_info_size,
                    prolog_section := prologSection % 2^8,
                    epilog_section := epilogSection % 2^8,
                    unresolved_section := unresolvedSection % 2^8,
                    pad := 0,
                    prolog_offset := prolog.address % 2^32,
                    epilog_offset := epilog.address % 2^32,
                    unresolved_offset := unresolved.address % 2^32 }

/-- Blit the filled-in header (and the version addenda) over the reserved
prefix, as the tail of `write_module_header` does. -/
def blitHeader (rel : List Nat) (h : ModuleHeader) (relVersion : RelVersion)
    (sectionStats : SectionStats) (relocationStats : RelocationStats) : List Nat :=
  let rel := listBlit rel 0 h.asBytes
  let rel :=
    if relVersionAtLeast relVersion .V2 then
      listBlit rel 0x40 (be32 sectionStats.max_align ++ be32 sectionStats.max_bss_align)
    else rel
  if relVersionAtLeast relVersion .V3 then
    listBlit rel 0x48 (be32 relocationStats.relocations_offset)
  else rel

/-- Embeds `elf2rel`, starting from the parsed ELF view (`parse_elf` has already
validated architecture, endianness and container format, which only
constrain which `ElfFile` values can arise from real inputs). -/
def elf2rel (elf : ElfFile) (symbolMap : String) (moduleId : Nat)
    (relVersion : RelVersion) : Outcome (List Nat) :=
  -- Write dummy values for module header until offsets are determined
  let rel := List.replicate (headerReservedSize relVersion) 0
  match write_sections elf.sections rel with
  | .error e => .error e
  | .ok (rel, section_stats) =>
    match extract_relocations elf symbolMap moduleId section_stats.section_offsets with
    | .error e => .error e
    | .panicked msg => .panicked msg
    | .ok relocations =>
      match write_relocations rel relocations moduleId section_stats.section_offsets with
      | .error e => .error e
      | .panicked msg => .panicked msg
      | .ok (rel, _stream, relocation_stats) =>
        match write_module_header elf moduleId relVersion section_stats relocation_stats with
        | .error e => .error e
        | .panicked msg => .panicked msg
        | .ok header =>
          .ok (blitHeader rel header relVersion section_stats relocation_stats)

/-! ## GCI packer (`src/gcipack.rs`)

Strings are modelled as `String`; `is_ascii` is "every char code < 128",
under which Rust's byte length equals the char count, so `String.length`
is used where the source uses `str::len` after the ASCII check.
`get_modified_time_sec` reads the system clock; the seconds value is an
explicit `now` parameter of the model. -/

/-- Embeds `GciPackError`, keeping the error constructor and its kind; the
human-readable `info` strings are not modelled. -/
inductive GciPackError where
  | imageInvalidSize (kind : String)
  | stringInvalidSize (kind : String)
  | stringNonAscii (kind : String)
deriving DecidableEq

/-- Rust `str::is_ascii`. -/
def strIsAscii (s : String) : Bool := s.toList.all (fun c => c.toNat < 128)

/-- UTF-8 bytes of an ASCII string (`str::as_bytes`). -/
def strBytes (s : String) : List Nat := s.toList.map Char.toNat

/-- Embeds `validate_str`: ASCII check, then maximum length. -/
def validate_str (s : String) (kind : String) (maxSize : Nat) :
    Except GciPackError Unit :=
  if ¬ strIsAscii s then .error (.stringNonAscii kind)
  else if s.length > maxSize then .error (.stringInvalidSize kind)
  else .ok ()

/-- Embeds `validate`: gamecode char count, the four string checks, then the two
image size checks. -/
def validate (file_name title description : String) (banner icon : List Nat)
    (gamecode : String) : Except GciPackError Unit :=
  if gamecode.length ≠ 6 then .error (.stringInvalidSize "game code")
  else
    match validate_str file_name "file name" 0x20 with
    | .error e => .error e
    | .ok () =>
      match validate_str title "title" 0x20 with
      | .error e => .error e
      | .ok () =>
        match validate_str description "description" 0x20 with
        | .error e => .error e
        | .ok () =>
          match validate_str gamecode "game code" 6 with
          | .error e => .error e
          | .ok () =>
            if banner.length ≠ 0x1800 then .error (.imageInvalidSize "banner")
            else if icon.length ≠ 0x800 then .error (.imageInvalidSize "icon")
            else .ok ()

/-- Embeds `str_to_padded_array::<N>`: the string's bytes, zero-padded to `n`. -/
def str_to_padded_array (n : Nat) (s : String) : List Nat :=
  strBytes s ++ List.replicate (n - (strBytes s).length) 0

/-- Embeds `GciHeader::as_bytes()` (0x40 bytes).  `blocks` is the computed block
count; the `blocks as u16` narrowing is the `% 2^16`. -/
def gciHeaderBytes (nowSec : Nat) (gamecode file_name : String) (blocks : Nat) :
    List Nat :=
  (strBytes gamecode).take 4 ++                     -- gamecode
  ((strBytes gamecode).drop 4).take 2 ++            -- company
  [0xff] ++                                         -- unused0
  [2] ++                                            -- banner_fmt
  str_to_padded_array 0x20 file_name ++             -- filename
  be32 (nowSec % 2^32) ++                           -- last_modified
  be32 0 ++                                         -- image_offset
  be16 2 ++                                         -- icon_format
  be16 3 ++                                         -- icon_speed
  [4] ++                                            -- permissions
  [0] ++                                            -- copy_times
  be16 0 ++                                         -- first_block_num
  be16 (blocks % 2^16) ++                           -- block_count
  be16 0xff ++                                      -- unused1
  be32 (0x1800 + 0x800)                             -- comment_offset

/-- Embeds `GciFileMetadata::as_bytes()` (0x2200 bytes: banner, icon, title,
description, file_size, padding). -/
def gciFileMetadataBytes (banner icon : List Nat) (title description : String)
    (fileLen : Nat) : List Nat :=
  banner ++ icon ++ str_to_padded_array 0x20 title ++
  str_to_padded_array 0x20 description ++ be32 (fileLen % 2^32) ++
  List.replicate 0x1BC 0

/-- Embeds `generate_gci`: header, metadata, payload and zero fill, with
`blocks = ceil((0x2200 + len) / 0x2000)` and a zero fill of
`blocks * 0x2000 - len` bytes. -/
def generate_gci (nowSec : Nat) (file : List Nat) (file_name title description : String)
    (banner icon : List Nat) (gamecode : String) : List Nat :=
  let gci_file_size := 0x2200 + file.length
  let blocks := (gci_file_size + 0x2000 - 1) / 0x2000
  let gci_file_size := blocks * 0x2000
  gciHeaderBytes nowSec gamecode file_name blocks ++
  gciFileMetadataBytes banner icon title description file.length ++
  file ++ List.replicate (gci_file_size - file.length) 0

/-- Embeds `gcipack`: validate, then generate. -/
def gcipack (nowSec : Nat) (file : List Nat) (file_name title description : String)
    (banner icon : List Nat) (gamecode : String) :
    Except GciPackError (List Nat) :=
  match validate file_name title description banner icon gamecode with
  | .error e => .error e
  | .ok () =>
    .ok (generate_gci nowSec file file_name title description banner icon gamecode)

/-! ## Observation helpers for the statements

Declarative counts and projections used to state properties of the
relocation stream and of the packed GCI; these are written from the
specification's vocabulary (runs, terminators, layout) and related to the
embedded functions by the theorems below. -/

/-- Number of distinct consecutive runs in a list, where a head element
equal to `last` continues the previous run. -/
def runCountFrom (last : Option Nat) : List Nat → Nat
  | [] => 0
  | m :: rest =>
    if some m = last then runCountFrom last rest else 1 + runCountFrom (some m) rest

/-- Number of distinct consecutive runs in a list. -/
def countRuns (l : List Nat) : Nat := runCountFrom none l

/-- The `dest_module` projection of a relocation list. -/
def destModules (l : List ElfRelocation) : List Nat := l.map (·.dest_module)

/-- The relocations that reach the emission code (those the writer does not
resolve statically). -/
def emittedRelocations (moduleId : Nat) (l : List ElfRelocation) : List ElfRelocation :=
  l.filter (fun r => ! isStaticallyResolved moduleId r)

/-- Number of `DolphinEnd` records in a record stream. -/
def countEnds (stream : List Relocation) : Nat :=
  stream.countP (fun r => r.type_ = relocationTypeCode .DolphinEnd)

/-- Number of relocations whose own ELF-sourced type is already
`DolphinEnd` (type 203); the writer passes these through verbatim, so each
contributes one additional `DolphinEnd` record to the stream. -/
def endTypeCount (l : List ElfRelocation) : Nat :=
  l.countP (fun r => r.type_ = RelocationType.DolphinEnd)

/-- Number of `DolphinEnd` records the emission loop itself appends,
starting from a given `current_module_id`: one per module switch whose
previous module was set. -/
def endsAdded (last : Option Nat) (ms : List Nat) : Nat :=
  match last with
  | some _ => runCountFrom last ms
  | none => runCountFrom none ms - 1

/-- Embeds `current_module_id` after the emission loop has walked `ms`. -/
def lastModuleAfter (last : Option Nat) (ms : List Nat) : Option Nat :=
  match ms.getLast? with
  | some m => some m
  | none => last

/-- Number of `DolphinNop` padding records emitted for a `target_delta`. -/
def nopIters (delta : Nat) : Nat := (delta - 1) / 0xFFFF

/-- Concatenated serialization of a list of relocation records. -/
def recordsBytes (rs : List Relocation) : List Nat :=
  (rs.map Relocation.asBytes).flatten

/-- The record-stream component of a `write_relocations` result. -/
def streamOf (o : Outcome (List Nat × List Relocation × RelocationStats)) :
    List Relocation :=
  match o with
  | .ok (_, s, _) => s
  | _ => []

/-- The statistics component of a `write_relocations` result. -/
def statsOf (o : Outcome (List Nat × List Relocation × RelocationStats)) :
    RelocationStats :=
  match o with
  | .ok (_, _, st) => st
  | _ => ⟨0, 0, 0⟩

/-- The payload of a successful `gcipack` result. -/
def okBytes (e : Except GciPackError (List Nat)) : List Nat :=
  match e with
  | .ok l => l
  | .error _ => []

/-- The output layout asserted by the sizing claim, word for word: a
0x40-byte header, then a 0x200-byte metadata block, then the payload
zero-padded so that the remainder is a multiple of 0x2000 bytes, with
nothing else. -/
def gciClaimLayout (out payload : List Nat) : Prop :=
  ∃ hdr meta rest, out = hdr ++ meta ++ rest ∧ hdr.length = 0x40 ∧
    meta.length = 0x200 ∧
    ∃ padding, rest = payload ++ padding ∧ (∀ b ∈ padding, b = 0) ∧
      rest.length % 0x2000 = 0

/-! ## Theorems -/


/-! ### Lemmas about the emission loop -/

theorem recordsBytes_nil : recordsBytes [] = [] := rfl

theorem recordsBytes_cons (r : Relocation) (rs : List Relocation) :
    recordsBytes (r :: rs) = r.asBytes ++ recordsBytes rs := by
  simp [recordsBytes]

theorem countEnds_append (a b : List Relocation) :
    countEnds (a ++ b) = countEnds a + countEnds b := by
  simp [countEnds, List.countP_append]

theorem countEnds_cons (r : Relocation) (rs : List Relocation) :
    countEnds (r :: rs) =
      countEnds rs + (if r.type_ = relocationTypeCode .DolphinEnd then 1 else 0) := by
  simp [countEnds, List.countP_cons]

theorem endTypeCount_cons (r : ElfRelocation) (l : List ElfRelocation) :
    endTypeCount (r :: l) =
      endTypeCount l + (if r.type_ = RelocationType.DolphinEnd then 1 else 0) := by
  simp [endTypeCount, List.countP_cons]

theorem countEnds_replicate_nop (n : Nat) :
    countEnds (List.replicate n dolphinNopRec) = 0 := by
  induction n with
  | zero => rfl
  | succ n ih =>
    rw [List.replicate_succ, countEnds_cons, ih]
    norm_num [dolphinNopRec, relocationTypeCode]

theorem nopIters_mul_le (d : Nat) : nopIters d * 0xFFFF ≤ d := by
  unfold nopIters; omega

theorem nopIters_remainder_le (d : Nat) : d - nopIters d * 0xFFFF ≤ 0xFFFF := by
  unfold nopIters; omega

theorem pairEq {α β : Type} {a c : α} {b d : β} (h1 : a = c) (h2 : b = d) :
    (a, b) = (c, d) := by
  rw [h1, h2]

theorem WriterState.ext' (x y : WriterState) (h1 : x.rel = y.rel)
    (h2 : x.stream = y.stream) (h3 : x.importInfoBuffer = y.importInfoBuffer)
    (h4 : x.currentModuleId = y.currentModuleId)
    (h5 : x.currentSectionIndex = y.currentSectionIndex)
    (h6 : x.currentOffset = y.currentOffset) : x = y := by
  cases x; cases y
  simp_all

theorem emitNopsFuel_eq (fuel : Nat) : ∀ (st : WriterState) (d : Nat),
    nopIters d ≤ fuel →
    emitNopsFuel fuel st d =
      ({ st with
          rel := st.rel ++ recordsBytes (List.replicate (nopIters d) dolphinNopRec),
          stream := st.stream ++ List.replicate (nopIters d) dolphinNopRec },
        d - nopIters d * 0xFFFF) := by
  induction fuel with
  | zero =>
    intro st d hle
    have hn : nopIters d = 0 := Nat.le_zero.mp hle
    show (st, d) = _
    rw [hn]
    refine pairEq (WriterState.ext' _ _ ?_ ?_ rfl rfl rfl rfl) (by omega)
    · show st.rel = st.rel ++ recordsBytes (List.replicate 0 dolphinNopRec)
      rw [List.replicate_zero, recordsBytes_nil, List.append_nil]
    · show st.stream = st.stream ++ List.replicate 0 dolphinNopRec
      rw [List.replicate_zero, List.append_nil]
  | succ fuel ih =>
    intro st d hle
    show (if d > 0xFFFF then emitNopsFuel fuel (pushRecord st dolphinNopRec) (d - 0xFFFF)
      else (st, d)) = _
    split
    case isTrue h =>
      have hn : nopIters d = nopIters (d - 0xFFFF) + 1 := by unfold nopIters; omega
      rw [ih (pushRecord st dolphinNopRec) (d - 0xFFFF) (by omega)]
      rw [hn]
      refine pairEq (WriterState.ext' _ _ ?_ ?_ rfl rfl rfl rfl) (by omega)
      · show (st.rel ++ dolphinNopRec.asBytes) ++
            recordsBytes (List.replicate (nopIters (d - 0xFFFF)) dolphinNopRec) =
          st.rel ++
            recordsBytes (List.replicate (nopIters (d - 0xFFFF) + 1) dolphinNopRec)
        rw [List.replicate_succ, recordsBytes_cons, List.append_assoc]
      · show (st.stream ++ [dolphinNopRec]) ++
            List.replicate (nopIters (d - 0xFFFF)) dolphinNopRec =
          st.stream ++ List.replicate (nopIters (d - 0xFFFF) + 1) dolphinNopRec
        rw [List.replicate_succ, List.append_assoc, List.singleton_append]
    case isFalse h =>
      have hn : nopIters d = 0 := by unfold nopIters; omega
      rw [hn]
      refine pairEq (WriterState.ext' _ _ ?_ ?_ rfl rfl rfl rfl) (by omega)
      · show st.rel = st.rel ++ recordsBytes (List.replicate 0 dolphinNopRec)
        rw [List.replicate_zero, recordsBytes_nil, List.append_nil]
      · show st.stream = st.stream ++ List.replicate 0 dolphinNopRec
        rw [List.replicate_zero, List.append_nil]

/-- Closed form of the `DolphinNop` emission loop: it appends
`nopIters target_delta` padding records and leaves the remainder. -/
theorem emitNops_eq (d : Nat) : ∀ st : WriterState,
    emitNops st d =
      ({ st with
          rel := st.rel ++ recordsBytes (List.replicate (nopIters d) dolphinNopRec),
          stream := st.stream ++ List.replicate (nopIters d) dolphinNopRec },
        d - nopIters d * 0xFFFF) := by
  intro st
  exact emitNopsFuel_eq d st d (by unfold nopIters; omega)

theorem emitNops_fst_importInfoBuffer (st : WriterState) (d : Nat) :
    (emitNops st d).1.importInfoBuffer = st.importInfoBuffer := by
  rw [emitNops_eq]

theorem emitNops_fst_currentModuleId (st : WriterState) (d : Nat) :
    (emitNops st d).1.currentModuleId = st.currentModuleId := by
  rw [emitNops_eq]

theorem emitNops_fst_countEnds (st : WriterState) (d : Nat) :
    countEnds (emitNops st d).1.stream = countEnds st.stream := by
  rw [emitNops_eq]
  show countEnds (st.stream ++ List.replicate (nopIters d) dolphinNopRec) = _
  rw [countEnds_append, countEnds_replicate_nop, Nat.add_zero]

theorem moduleSwitch_currentModuleId (st : WriterState) (r : ElfRelocation) :
    (moduleSwitch st r).currentModuleId = some r.dest_module := by
  unfold moduleSwitch
  split
  case isTrue h => exact h
  case isFalse h => split <;> rfl

theorem moduleSwitch_buffer_length (st : WriterState) (r : ElfRelocation) :
    (moduleSwitch st r).importInfoBuffer.length =
      st.importInfoBuffer.length +
        (if st.currentModuleId = some r.dest_module then 0 else 1) := by
  unfold moduleSwitch
  split
  case isTrue h => simp [h]
  case isFalse h => split <;> simp [h, pushRecord]

theorem moduleSwitch_countEnds (st : WriterState) (r : ElfRelocation) :
    countEnds (moduleSwitch st r).stream =
      countEnds st.stream +
        (if st.currentModuleId = some r.dest_module then 0
         else if st.currentModuleId.isSome then 1 else 0) := by
  unfold moduleSwitch
  split
  case isTrue h => simp [h]
  case isFalse h =>
    split
    case isTrue h2 =>
      simp [h, h2, pushRecord, countEnds_append, countEnds, dolphinEndRec, relocationTypeCode]
    case isFalse h2 => simp [h, h2]

theorem sectionSwitch_currentModuleId (st : WriterState) (r : ElfRelocation) :
    (sectionSwitch st r).currentModuleId = st.currentModuleId := by
  unfold sectionSwitch
  split <;> simp [pushRecord]

theorem sectionSwitch_buffer (st : WriterState) (r : ElfRelocation) :
    (sectionSwitch st r).importInfoBuffer = st.importInfoBuffer := by
  unfold sectionSwitch
  split <;> simp [pushRecord]

theorem sectionSwitch_countEnds (st : WriterState) (r : ElfRelocation) :
    countEnds (sectionSwitch st r).stream = countEnds st.stream := by
  unfold sectionSwitch
  split
  case isTrue h => rfl
  case isFalse h =>
    simp [pushRecord, countEnds_append, countEnds, dolphinSectionRec, relocationTypeCode]

theorem relocationTypeCode_eq_end_iff (t : RelocationType) :
    relocationTypeCode t = relocationTypeCode .DolphinEnd ↔ t = .DolphinEnd := by
  cases t <;> simp [relocationTypeCode]

/-- Effect of one emitted (non-static) relocation on the import buffer,
the terminator count, and the module tracking. -/
theorem processOne_emitted (moduleId : Nat) (so : List (Nat × Nat))
    (st st' : WriterState) (r : ElfRelocation)
    (hstatic : isStaticallyResolved moduleId r = false)
    (h : processOne moduleId so st r = .ok st') :
    st'.importInfoBuffer.length =
        st.importInfoBuffer.length +
          (if st.currentModuleId = some r.dest_module then 0 else 1) ∧
    countEnds st'.stream =
        countEnds st.stream +
          (if st.currentModuleId = some r.dest_module then 0
           else if st.currentModuleId.isSome then 1 else 0) +
          (if r.type_ = RelocationType.DolphinEnd then 1 else 0) ∧
    st'.currentModuleId = some r.dest_module := by
  unfold processOne at h
  rw [hstatic] at h
  simp only [Bool.false_eq_true, if_false] at h
  split at h
  case isTrue hsup =>
    cases h
    refine ⟨?_, ?_, ?_⟩
    · show (emitNops (sectionSwitch (moduleSwitch st r) r)
          (sub32 r.src_offset
            (sectionSwitch (moduleSwitch st r) r).currentOffset)).1.importInfoBuffer.length = _
      rw [emitNops_fst_importInfoBuffer, sectionSwitch_buffer, moduleSwitch_buffer_length]
    · show countEnds ((emitNops (sectionSwitch (moduleSwitch st r) r)
          (sub32 r.src_offset
            (sectionSwitch (moduleSwitch st r) r).currentOffset)).1.stream ++ [_]) = _
      rw [countEnds_append, emitNops_fst_countEnds, sectionSwitch_countEnds,
        moduleSwitch_countEnds, countEnds_cons]
      have hone : (if (relocationTypeCode r.type_ : Nat) =
            relocationTypeCode RelocationType.DolphinEnd then (1 : Nat) else 0) =
          (if r.type_ = RelocationType.DolphinEnd then 1 else 0) := by
        by_cases ht : r.type_ = RelocationType.DolphinEnd
        · rw [ht, if_pos rfl, if_pos rfl]
        · rw [if_neg ht, if_neg ((relocationTypeCode_eq_end_iff r.type_).not.mpr ht)]
      rw [show countEnds [] = 0 from rfl, hone]
      omega
    · show (emitNops (sectionSwitch (moduleSwitch st r) r)
          (sub32 r.src_offset
            (sectionSwitch (moduleSwitch st r) r).currentOffset)).1.currentModuleId = _
      rw [emitNops_fst_currentModuleId, sectionSwitch_currentModuleId,
        moduleSwitch_currentModuleId]
  case isFalse hsup => exact absurd h (by simp)

theorem emittedRelocations_cons_static (moduleId : Nat) (r : ElfRelocation)
    (rest : List ElfRelocation) (h : isStaticallyResolved moduleId r = true) :
    emittedRelocations moduleId (r :: rest) = emittedRelocations moduleId rest := by
  simp [emittedRelocations, List.filter_cons, h]

theorem emittedRelocations_cons_emitted (moduleId : Nat) (r : ElfRelocation)
    (rest : List ElfRelocation) (h : isStaticallyResolved moduleId r = false) :
    emittedRelocations moduleId (r :: rest) = r :: emittedRelocations moduleId rest := by
  simp [emittedRelocations, List.filter_cons, h]

theorem lastModuleAfter_cons (last : Option Nat) (m : Nat) (ms : List Nat) :
    lastModuleAfter last (m :: ms) = lastModuleAfter (some m) ms := by
  cases ms with
  | nil => rfl
  | cons x t =>
    unfold lastModuleAfter
    rw [List.getLast?_cons_cons]
    cases hgl : (x :: t).getLast? with
    | some y => rfl
    | none => simp at hgl

/-- Effect of one statically resolved relocation: only the byte buffer
changes. -/
theorem processOne_static (moduleId : Nat) (so : List (Nat × Nat))
    (st st' : WriterState) (r : ElfRelocation)
    (hstatic : isStaticallyResolved moduleId r = true)
    (h : processOne moduleId so st r = .ok st') :
    st'.importInfoBuffer = st.importInfoBuffer ∧ st'.stream = st.stream ∧
    st'.currentModuleId = st.currentModuleId := by
  unfold processOne at h
  rw [hstatic] at h
  simp only [if_true] at h
  split at h
  case _ => cases h; exact ⟨rfl, rfl, rfl⟩
  case _ => exact absurd h (by simp)
  case _ => exact absurd h (by simp)

/-- C2 (counterexample): on the input consisting of the line `// comment`
followed by the line `  deadbeef : foo  `, the parser maps the key
`" foo"` (the raw remainder after the colon, with its leading space), not
the trimmed name `"foo"` the claim asserts: looking up `"foo"` in the
resulting map fails. -/
theorem c2_counterexample :
    parse_symbol_map "// comment\n  deadbeef : foo  " = .ok [(" foo", 0xdeadbeef)] ∧
    mapLookup [(" foo", 0xdeadbeef)] "foo" = none ∧
    mapLookup [(" foo", 0xdeadbeef)] " foo" = some 0xdeadbeef := by
  refine ⟨?_, ?_, ?_⟩ <;> decide

/-- C2 (amended): for every line of every symbol-map input, the parser
trims the line, skips it if empty or starting with `//`, splits on the
first `:`, fails citing the 1-indexed line number when the `:` is missing,
the name is empty, or the hex address does not parse, and otherwise maps
the *untrimmed* remainder after the colon to the parsed 32-bit address
(last binding wins); equivalently, `parse_symbol_map` coincides with the
declarative per-line description `declarativeParse`. -/
theorem c2_parse_symbol_map_amended (s : String) :
    parse_symbol_map s = declarativeParse s :=
  parseSymbolMapGo_eq_declarativeGo (rustLines s) 0 []

/-- C10: a section whose name cannot be read (`section.name()` fails,
modelled as `name = none`) is treated as excluded by `write_sections`: the
step emits exactly one all-zero `SectionInfo` entry, appends none of the
section's bytes, records no offset for it, and returns no error — even
when the section's own data would be unreadable too. -/
theorem c10_unreadable_name_excluded (st : SectionWriterState) (s : ElfSection)
    (h : s.name = none) :
    writeSectionStep st s =
      .ok { st with sectionInfoBuffer := st.sectionInfoBuffer ++ sectionInfoBytes 0 0 } := by
  have hvalid : validSectionName s.name = false := by
    rw [h]; decide
  unfold writeSectionStep
  simp [hvalid]

theorem c10_unreadable_name_excluded_witness :
    (ElfSection.mk 3 none SectKind.text 4 16 (.error "unreadable") []).name = none ∧
    writeSectionStep ⟨[7, 7, 7], [9], [(2, 0)], 5, 2, 2⟩
        (ElfSection.mk 3 none SectKind.text 4 16 (.error "unreadable") []) =
      .ok ⟨[7, 7, 7], [9] ++ sectionInfoBytes 0 0, [(2, 0)], 5, 2, 2⟩ :=
  ⟨rfl, c10_unreadable_name_excluded ⟨[7, 7, 7], [9], [(2, 0)], 5, 2, 2⟩
    (ElfSection.mk 3 none SectKind.text 4 16 (.error "unreadable") []) rfl⟩

/-- Invariant of the emission loop: starting from any state, a successful
run over `l` grows the import buffer by one entry per module run among the
emitted relocations, emits one `DolphinEnd` per module switch whose
previous module was set plus one per emitted relocation whose own type is
already `DolphinEnd`, and tracks the last emitted module. -/
theorem processList_invariant (moduleId : Nat) (so : List (Nat × Nat))
    (l : List ElfRelocation) :
    ∀ (st st' : WriterState),
      processList moduleId so st l = .ok st' →
      st'.importInfoBuffer.length =
          st.importInfoBuffer.length +
            runCountFrom st.currentModuleId
              (destModules (emittedRelocations moduleId l)) ∧
      countEnds st'.stream =
          countEnds st.stream +
            endsAdded st.currentModuleId
              (destModules (emittedRelocations moduleId l)) +
            endTypeCount (emittedRelocations moduleId l) ∧
      st'.currentModuleId =
          lastModuleAfter st.currentModuleId
            (destModules (emittedRelocations moduleId l)) := by
  induction l with
  | nil =>
    intro st st' h
    cases h
    refine ⟨?_, ?_, ?_⟩
    · show st.importInfoBuffer.length = st.importInfoBuffer.length + runCountFrom _ []
      rw [runCountFrom]
      omega
    · show countEnds st.stream =
          countEnds st.stream + endsAdded st.currentModuleId [] + endTypeCount []
      cases st.currentModuleId <;> simp [endsAdded, runCountFrom, endTypeCount]
    · show st.currentModuleId = lastModuleAfter st.currentModuleId []
      rfl
  | cons r rest ih =>
    intro st st' h
    unfold processList at h
    cases hpo : processOne moduleId so st r with
    | error e => rw [hpo] at h; exact absurd h (by simp)
    | panicked msg => rw [hpo] at h; exact absurd h (by simp)
    | ok st1 =>
      rw [hpo] at h
      have hrest := ih st1 st' h
      cases hsr : isStaticallyResolved moduleId r with
      | true =>
        obtain ⟨hb, hs, hm⟩ := processOne_static moduleId so st st1 r hsr hpo
        rw [emittedRelocations_cons_static moduleId r rest hsr]
        obtain ⟨ih1, ih2, ih3⟩ := hrest
        rw [ih1, ih2, ih3, hb, hs, hm]
        exact ⟨rfl, rfl, rfl⟩
      | false =>
        obtain ⟨hb, hs, hm⟩ := processOne_emitted moduleId so st st1 r hsr hpo
        rw [emittedRelocations_cons_emitted moduleId r rest hsr]
        obtain ⟨ih1, ih2, ih3⟩ := hrest
        have hms : destModules (r :: emittedRelocations moduleId rest) =
            r.dest_module :: destModules (emittedRelocations moduleId rest) := by
          simp [destModules]
        rw [hms, endTypeCount_cons]
        refine ⟨?_, ?_, ?_⟩
        · rw [ih1, hb, hm]
          by_cases hcm : st.currentModuleId = some r.dest_module
          · have hcm2 : some r.dest_module = st.currentModuleId := hcm.symm
            rw [runCountFrom, if_pos hcm2, if_pos hcm, hcm]
            omega
          · have hcm2 : ¬ (some r.dest_module = st.currentModuleId) :=
              fun hh => hcm hh.symm
            rw [runCountFrom, if_neg hcm2, if_neg hcm]
            omega
        · rw [ih2, hs, hm]
          cases hcmv : st.currentModuleId with
          | none =>
            have hc1 : (if (none : Option Nat) = some r.dest_module then (0 : Nat)
                else if (none : Option Nat).isSome then 1 else 0) = 0 := by simp
            have hc2 : ¬ (some r.dest_module = (none : Option Nat)) := by simp
            rw [hc1]
            simp only [endsAdded]
            rw [runCountFrom, if_neg hc2]
            omega
          | some c =>
            by_cases hcm : c = r.dest_module
            · rw [hcm]
              have hc1 : (if (some r.dest_module : Option Nat) = some r.dest_module
                  then (0 : Nat) else if (some r.dest_module : Option Nat).isSome
                    then 1 else 0) = 0 := by simp
              rw [hc1]
              simp only [endsAdded]
              have hc2 : (some r.dest_module : Option Nat) = some r.dest_module := rfl
              rw [runCountFrom, if_pos hc2]
              omega
            · have hne : ¬ ((some c : Option Nat) = some r.dest_module) := by
                intro hh; exact hcm (Option.some.inj hh)
              have hc1 : (if (some c : Option Nat) = some r.dest_module then (0 : Nat)
                  else if (some c : Option Nat).isSome then 1 else 0) = 1 := by
                rw [if_neg hne]; simp
              have hc2 : ¬ (some r.dest_module = (some c : Option Nat)) :=
                fun hh => hne hh.symm
              rw [hc1]
              simp only [endsAdded]
              rw [runCountFrom, if_neg hc2]
              omega
        · rw [ih3, hm, lastModuleAfter_cons]

/-- Import-table part of the loop invariant, with no side condition: one
entry is appended to the import table per module run among the emitted
relocations. -/
theorem processList_imports (moduleId : Nat) (so : List (Nat × Nat))
    (l : List ElfRelocation) :
    ∀ (st st' : WriterState),
      processList moduleId so st l = .ok st' →
      st'.importInfoBuffer.length =
          st.importInfoBuffer.length +
            runCountFrom st.currentModuleId
              (destModules (emittedRelocations moduleId l)) ∧
      st'.currentModuleId =
          lastModuleAfter st.currentModuleId
            (destModules (emittedRelocations moduleId l)) := by
  induction l with
  | nil =>
    intro st st' h
    cases h
    refine ⟨?_, rfl⟩
    show st.importInfoBuffer.length = st.importInfoBuffer.length + runCountFrom _ []
    rw [runCountFrom]
    omega
  | cons r rest ih =>
    intro st st' h
    unfold processList at h
    cases hpo : processOne moduleId so st r with
    | error e => rw [hpo] at h; exact absurd h (by simp)
    | panicked msg => rw [hpo] at h; exact absurd h (by simp)
    | ok st1 =>
      rw [hpo] at h
      obtain ⟨ih1, ih3⟩ := ih st1 st' h
      cases hsr : isStaticallyResolved moduleId r with
      | true =>
        obtain ⟨hb, _, hm⟩ := processOne_static moduleId so st st1 r hsr hpo
        rw [emittedRelocations_cons_static moduleId r rest hsr]
        rw [ih1, ih3, hb, hm]
        exact ⟨rfl, rfl⟩
      | false =>
        obtain ⟨hb, _, hm⟩ := processOne_emitted moduleId so st st1 r hsr hpo
        rw [emittedRelocations_cons_emitted moduleId r rest hsr]
        have hms : destModules (r :: emittedRelocations moduleId rest) =
            r.dest_module :: destModules (emittedRelocations moduleId rest) := by
          simp [destModules]
        rw [hms]
        refine ⟨?_, ?_⟩
        · rw [ih1, hb, hm]
          by_cases hcm : st.currentModuleId = some r.dest_module
          · have hcm2 : some r.dest_module = st.currentModuleId := hcm.symm
            rw [runCountFrom, if_pos hcm2, if_pos hcm, hcm]
            omega
          · have hcm2 : ¬ (some r.dest_module = st.currentModuleId) :=
              fun hh => hcm hh.symm
            rw [runCountFrom, if_neg hcm2, if_neg hcm]
            omega
        · rw [ih3, hm, lastModuleAfter_cons]

theorem importInfo_flatten_length (lst : List ImportInfo) :
    ((lst.map ImportInfo.asBytes).flatten).length = 8 * lst.length := by
  induction lst with
  | nil => rfl
  | cons i t ih =>
    simp only [List.map_cons, List.flatten_cons, List.length_append, ih]
    simp [ImportInfo.asBytes, be32]
    omega

theorem endsAdded_none_add_one (ms : List Nat) :
    endsAdded none ms + 1 = max (runCountFrom none ms) 1 := by
  cases ms with
  | nil => rfl
  | cons m t =>
    have h1 : runCountFrom none (m :: t) = 1 + runCountFrom (some m) t := by
      rw [runCountFrom, if_neg (by simp : ¬ (some m = (none : Option Nat)))]
    simp only [endsAdded, h1]
    omega

/-- C6 (counterexample): for one external `PpcAddr32` relocation (one
module group), the successful stream contains exactly one `DolphinEnd` —
the single post-loop terminator, which closes the group — not the two
(one per group plus one additional trailing) the claim asserts. -/
theorem c6_counterexample :
    (write_relocations (List.replicate 80 0)
      [⟨1, 0, 0, 0, 0x80001000, .PpcAddr32⟩] 1 [(1, 64)]).isOk = true ∧
    countEnds (streamOf (write_relocations (List.replicate 80 0)
      [⟨1, 0, 0, 0, 0x80001000, .PpcAddr32⟩] 1 [(1, 64)])) = 1 ∧
    countRuns (destModules (emittedRelocations 1
      [⟨1, 0, 0, 0, 0x80001000, .PpcAddr32⟩])) = 1 ∧
    (1 : Nat) ≠ 1 + 1 := by
  refine ⟨by decide, by decide, by decide, by decide⟩

/-- C6 (amended): in every successful relocation stream, the total number
of `DolphinEnd` records is `max (number of module groups) 1` plus the
number of emitted relocations whose own ELF-sourced type is already
`DolphinEnd` (the writer passes the type through verbatim): each group
except the last is terminated at the following module switch, the single
trailing `DolphinEnd` terminates the last group with no additional
trailing terminator after it, and with no groups at all the stream is
exactly one `DolphinEnd`. -/
theorem c6_terminators_amended
    (rel : List Nat) (l : List ElfRelocation) (moduleId : Nat) (so : List (Nat × Nat))
    (out : List Nat) (stream : List Relocation) (stats : RelocationStats)
    (h : write_relocations rel l moduleId so = .ok (out, stream, stats)) :
    countEnds stream =
      max (countRuns (destModules (emittedRelocations moduleId l))) 1 +
        endTypeCount (emittedRelocations moduleId l) := by
  simp only [write_relocations] at h
  split at h
  case _ e heq => exact absurd h (by simp)
  case _ msg heq => exact absurd h (by simp)
  case _ st heq =>
    obtain ⟨_, hs, _⟩ := processList_invariant moduleId so l _ st heq
    rw [Outcome.ok.injEq, Prod.mk.injEq, Prod.mk.injEq] at h
    obtain ⟨_, h2, _⟩ := h
    rw [← h2]
    show countEnds (st.stream ++ [dolphinEndRec]) = _
    rw [countEnds_append, hs]
    show countEnds ([] : List Relocation) + endsAdded none _ + endTypeCount _ +
        countEnds [dolphinEndRec] = _
    rw [show countEnds ([] : List Relocation) = 0 from rfl,
      show countEnds [dolphinEndRec] = 1 from rfl]
    rw [countRuns, ← endsAdded_none_add_one]
    omega

theorem c6_terminators_amended_witness :
    countEnds [dolphinSectionRec 1, ⟨0, 1, 0, 0x80001000⟩, ⟨4, 203, 0, 0⟩,
        dolphinEndRec] =
      max (countRuns (destModules (emittedRelocations 1
        [⟨1, 0, 0, 0, 0x80001000, .PpcAddr32⟩, ⟨1, 4, 0, 0, 0, .DolphinEnd⟩]))) 1 +
      endTypeCount (emittedRelocations 1
        [⟨1, 0, 0, 0, 0x80001000, .PpcAddr32⟩, ⟨1, 4, 0, 0, 0, .DolphinEnd⟩]) :=
  c6_terminators_amended (List.replicate 80 0)
    [⟨1, 0, 0, 0, 0x80001000, .PpcAddr32⟩, ⟨1, 4, 0, 0, 0, .DolphinEnd⟩] 1 [(1, 64)]
    (List.replicate 80 0 ++ ImportInfo.asBytes ⟨0, 88⟩ ++
      Relocation.asBytes (dolphinSectionRec 1) ++
      Relocation.asBytes ⟨0, 1, 0, 0x80001000⟩ ++
      Relocation.asBytes ⟨4, 203, 0, 0⟩ ++ Relocation.asBytes dolphinEndRec)
    [dolphinSectionRec 1, ⟨0, 1, 0, 0x80001000⟩, ⟨4, 203, 0, 0⟩, dolphinEndRec]
    ⟨88, 80, 8⟩ (by decide)

/-- C1 (counterexample): for one intra-module `PpcRel24` relocation, the
sorted list has one `dest_module` run (`n = 1`, and one import entry is
reserved), yet the relocation is statically resolved, no import entry is
emitted, and the recorded `import_info_size` is `0`, not `n × 8 = 8`. -/
theorem c1_counterexample :
    (write_relocations (List.replicate 72 0)
      [⟨1, 0, 1, 1, 0, .PpcRel24⟩] 1 [(1, 64)]).isOk = true ∧
    (statsOf (write_relocations (List.replicate 72 0)
      [⟨1, 0, 1, 1, 0, .PpcRel24⟩] 1 [(1, 64)])).import_info_size = 0 ∧
    importCountAux none [⟨1, 0, 1, 1, 0, .PpcRel24⟩] = 1 ∧
    (0 : Nat) ≠ 1 * 8 := by
  refine ⟨by decide, by decide, by decide, by decide⟩

/-- C1 (amended): the `import_info_size` recorded by `write_relocations`
(and copied verbatim into the module header) is `8 ×` the number of
distinct consecutive `dest_module` runs among the relocations actually
emitted to the stream — the statically resolved relocations do not count,
so this can be smaller than the run count of the full sorted list that
sizes the reserved import table. -/
theorem c1_import_info_size_amended (rel : List Nat) (l : List ElfRelocation)
    (moduleId : Nat) (so : List (Nat × Nat)) (out : List Nat) (stream : List Relocation)
    (stats : RelocationStats) (elf : ElfFile) (relVersion : RelVersion)
    (ss : SectionStats) (hdr : ModuleHeader)
    (hw : write_relocations rel l moduleId so = .ok (out, stream, stats))
    (hh : write_module_header elf moduleId relVersion ss stats = .ok hdr) :
    stats.import_info_size =
      (8 * countRuns (destModules (emittedRelocations moduleId l))) % 2^32 ∧
    hdr.import_info_size = stats.import_info_size := by
  constructor
  · simp only [write_relocations] at hw
    split at hw
    case _ e heq => exact absurd hw (by simp)
    case _ msg heq => exact absurd hw (by simp)
    case _ st heq =>
      obtain ⟨hb, _⟩ := processList_imports moduleId so l _ st heq
      rw [Outcome.ok.injEq, Prod.mk.injEq, Prod.mk.injEq] at hw
      obtain ⟨_, _, h3⟩ := hw
      rw [← h3]
      show ((st.importInfoBuffer.map ImportInfo.asBytes).flatten).length % 2^32 = _
      rw [importInfo_flatten_length, hb, countRuns]
      simp only [List.length_nil, Nat.zero_add]
  · unfold write_module_header at hh
    repeat' split at hh
    all_goals first
      | (rw [Outcome.ok.injEq] at hh; rw [← hh])
      | exact absurd hh (by simp)

theorem c1_import_info_size_amended_witness :
    write_relocations (List.replicate 72 0) [⟨1, 0, 1, 1, 0, .PpcRel24⟩] 1 [(1, 64)] =
      .ok (List.replicate 80 0 ++ Relocation.asBytes dolphinEndRec,
        [dolphinEndRec], ⟨80, 72, 0⟩) ∧
    (RelocationStats.mk 80 72 0).import_info_size =
      (8 * countRuns (destModules (emittedRelocations 1
        [⟨1, 0, 1, 1, 0, .PpcRel24⟩]))) % 2^32 ∧
    (ModuleHeader.mk 1 0 0 0 64 0 0 1 0 80 72 0 1 1 1 0 16 32 48).import_info_size =
      (RelocationStats.mk 80 72 0).import_info_size :=
  ⟨by decide,
    c1_import_info_size_amended (List.replicate 72 0) [⟨1, 0, 1, 1, 0, .PpcRel24⟩]
      1 [(1, 64)] (List.replicate 80 0 ++ Relocation.asBytes dolphinEndRec)
      [dolphinEndRec] ⟨80, 72, 0⟩
      ⟨[], [⟨"_prolog", .defined 1, 0x10⟩, ⟨"_epilog", .defined 1, 0x20⟩,
        ⟨"_unresolved", .defined 1, 0x30⟩]⟩ .V1 ⟨0, 2, 2, 64, [(1, 64)]⟩
      ⟨1, 0, 0, 0, 64, 0, 0, 1, 0, 80, 72, 0, 1, 1, 1, 0, 16, 32, 48⟩
      (by decide) (by decide)⟩

theorem recordsBytes_append (a b : List Relocation) :
    recordsBytes (a ++ b) = recordsBytes a ++ recordsBytes b := by
  simp [recordsBytes]

/-- The wrapping `u32` computation
`dest_base as i32 + addend as i32 - src_offset as i32` on unsigned
representatives equals the low 32 bits of the signed integer value. -/
theorem wrap_eq_u32OfInt (a b c : Nat) :
    (a % 2^32 + b % 2^32 + (2^32 - c % 2^32)) % 2^32 = u32OfInt ((a : Int) + b - c) := by
  unfold u32OfInt
  omega

theorem moduleSwitch_eq_self (st : WriterState) (r : ElfRelocation)
    (h : st.currentModuleId = some r.dest_module) : moduleSwitch st r = st := by
  unfold moduleSwitch
  rw [if_pos h]

theorem sectionSwitch_eq_self (st : WriterState) (r : ElfRelocation)
    (h : st.currentSectionIndex = some r.src_section) : sectionSwitch st r = st := by
  unfold sectionSwitch
  rw [if_pos h]

/-- C5: a collected relocation with `dest_module = module_id` and type
`PpcRel24` or `PpcRel32` (whose source and destination sections have
recorded offsets and whose patch site lies inside the buffer) is resolved
in place: the 4 bytes at `section_offsets[src_section] + src_offset` are
replaced by the big-endian encoding of `old | (delta & 0x03FFFFFC)` for
`PpcRel24` resp. `delta` for `PpcRel32`, with
`delta = section_offsets[dest_section] + addend - (section_offsets[src_section] + src_offset)`
as a signed 32-bit value, and no record is appended to the relocation
stream for it. -/
theorem c5_static_relocation (st : WriterState) (moduleId : Nat)
    (so : List (Nat × Nat)) (r : ElfRelocation) (srcBase destBase : Nat)
    (hmod : r.dest_module = moduleId)
    (hty : r.type_ = RelocationType.PpcRel24 ∨ r.type_ = RelocationType.PpcRel32)
    (hsrc : lookupSec so r.src_section = some srcBase)
    (hdest : lookupSec so r.dest_section = some destBase)
    (hbound : srcBase + r.src_offset + 4 ≤ st.rel.length) :
    processOne moduleId so st r =
      .ok { st with rel := (listBlit st.rel (srcBase + r.src_offset)
        (be32 (if r.type_ = RelocationType.PpcRel24
          then decodeBe32 ((st.rel.drop (srcBase + r.src_offset)).take 4) |||
            (u32OfInt ((destBase : Int) + r.addend - (srcBase + r.src_offset)) &&& 0x03FFFFFC)
          else u32OfInt ((destBase : Int) + r.addend - (srcBase + r.src_offset))))) } := by
  have hstat : isStaticallyResolved moduleId r = true := by
    unfold isStaticallyResolved
    rw [hmod]
    cases hty with
    | inl h => rw [h]; simp
    | inr h => rw [h]; simp
  unfold processOne
  split
  case isFalse hfalse => rw [hstat] at hfalse; exact absurd rfl hfalse
  case isTrue _ =>
    cases hty with
    | inl h =>
      simp only [statically_apply_relocation, hsrc, hdest, h, if_pos hbound]
      rw [wrap_eq_u32OfInt, Nat.cast_add, if_pos trivial]
    | inr h =>
      simp only [statically_apply_relocation, hsrc, hdest, h, if_pos hbound]
      rw [wrap_eq_u32OfInt, Nat.cast_add, if_neg (by intro hq; cases hq)]

theorem c5_static_relocation_witness :
    ((⟨0, 0, 7, 2, 4, .PpcRel32⟩ : ElfRelocation).dest_module = 7 ∧
      lookupSec [(0, 4), (2, 8)] 0 = some 4 ∧
      lookupSec [(0, 4), (2, 8)] 2 = some 8 ∧
      4 + (⟨0, 0, 7, 2, 4, .PpcRel32⟩ : ElfRelocation).src_offset + 4 ≤
        (List.replicate 12 0).length) ∧
    processOne 7 [(0, 4), (2, 8)]
        ⟨List.replicate 12 0, [], [], none, none, 0⟩ ⟨0, 0, 7, 2, 4, .PpcRel32⟩ =
      .ok ⟨listBlit (List.replicate 12 0) (4 + 0)
          (be32 (if (RelocationType.PpcRel32 = RelocationType.PpcRel24)
            then decodeBe32 (((List.replicate 12 0).drop (4 + 0)).take 4) |||
              (u32OfInt ((8 : Int) + 4 - (4 + 0)) &&& 0x03FFFFFC)
            else u32OfInt ((8 : Int) + 4 - (4 + 0)))),
        [], [], none, none, 0⟩ :=
  ⟨⟨rfl, by decide, by decide, by decide⟩,
    c5_static_relocation ⟨List.replicate 12 0, [], [], none, none, 0⟩ 7
      [(0, 4), (2, 8)] ⟨0, 0, 7, 2, 4, .PpcRel32⟩ 4 8 rfl (Or.inr rfl)
      (by decide) (by decide) (by decide)⟩

/-- C7: for every emitted relocation reached with the module and section
already current, with `target_delta = src_offset - current_offset` (as
`u32`), the writer first emits `nopIters target_delta` records
`DolphinNop {offset = 0xFFFF}` (one per iteration of the
`while target_delta > 0xFFFF` loop, subtracting `0xFFFF` each time) and
then the real record whose `offset` is the remaining `target_delta`, which
is at most `0xFFFF`. -/
theorem c7_long_jump_padding (moduleId : Nat) (so : List (Nat × Nat))
    (st : WriterState) (r : ElfRelocation)
    (hstatic : isStaticallyResolved moduleId r = false)
    (hmod : st.currentModuleId = some r.dest_module)
    (hsec : st.currentSectionIndex = some r.src_section)
    (hsup : supportedRelocationType r.type_ = true) :
    processOne moduleId so st r =
      .ok { st with
        rel := st.rel ++ recordsBytes (List.replicate
            (nopIters (sub32 r.src_offset st.currentOffset)) dolphinNopRec ++
          [⟨sub32 r.src_offset st.currentOffset -
              nopIters (sub32 r.src_offset st.currentOffset) * 0xFFFF,
            relocationTypeCode r.type_, r.dest_section % 2^8, r.addend % 2^32⟩]),
        stream := st.stream ++ List.replicate
            (nopIters (sub32 r.src_offset st.currentOffset)) dolphinNopRec ++
          [⟨sub32 r.src_offset st.currentOffset -
              nopIters (sub32 r.src_offset st.currentOffset) * 0xFFFF,
            relocationTypeCode r.type_, r.dest_section % 2^8, r.addend % 2^32⟩],
        currentOffset := r.src_offset } ∧
    sub32 r.src_offset st.currentOffset -
        nopIters (sub32 r.src_offset st.currentOffset) * 0xFFFF ≤ 0xFFFF := by
  have hmodle : (sub32 r.src_offset st.currentOffset -
      nopIters (sub32 r.src_offset st.currentOffset) * 0xFFFF) % 2^16 =
      sub32 r.src_offset st.currentOffset -
        nopIters (sub32 r.src_offset st.currentOffset) * 0xFFFF :=
    Nat.mod_eq_of_lt (Nat.lt_of_le_of_lt (nopIters_remainder_le _) (by norm_num))
  refine ⟨?_, nopIters_remainder_le _⟩
  unfold processOne
  split
  case isTrue htrue => rw [hstatic] at htrue; cases htrue
  case isFalse _ =>
    simp only [moduleSwitch_eq_self st r hmod, sectionSwitch_eq_self st r hsec,
      emitNops_eq, if_pos hsup, Outcome.ok.injEq]
    refine WriterState.ext' _ _ ?_ ?_ rfl rfl rfl rfl
    · show (st.rel ++ recordsBytes (List.replicate
          (nopIters (sub32 r.src_offset st.currentOffset)) dolphinNopRec)) ++
        Relocation.asBytes ⟨(sub32 r.src_offset st.currentOffset -
            nopIters (sub32 r.src_offset st.currentOffset) * 0xFFFF) % 2^16,
          relocationTypeCode r.type_, r.dest_section % 2^8, r.addend % 2^32⟩ = _
      rw [hmodle, recordsBytes_append, ← List.append_assoc]
      rw [show recordsBytes [(⟨sub32 r.src_offset st.currentOffset -
          nopIters (sub32 r.src_offset st.currentOffset) * 0xFFFF,
          relocationTypeCode r.type_, r.dest_section % 2^8, r.addend % 2^32⟩ : Relocation)] =
        Relocation.asBytes ⟨sub32 r.src_offset st.currentOffset -
          nopIters (sub32 r.src_offset st.currentOffset) * 0xFFFF,
          relocationTypeCode r.type_, r.dest_section % 2^8, r.addend % 2^32⟩ ++ []
        from recordsBytes_cons _ _]
      rw [List.append_nil]
    · show (st.stream ++ List.replicate
          (nopIters (sub32 r.src_offset st.currentOffset)) dolphinNopRec) ++
        [(⟨(sub32 r.src_offset st.currentOffset -
            nopIters (sub32 r.src_offset st.currentOffset) * 0xFFFF) % 2^16,
          relocationTypeCode r.type_, r.dest_section % 2^8, r.addend % 2^32⟩ : Relocation)] = _
      rw [hmodle, List.append_assoc]

theorem c7_long_jump_padding_witness :
    (isStaticallyResolved 1 ⟨1, 0x20000, 0, 0, 4, .PpcAddr32⟩ = false ∧
      supportedRelocationType RelocationType.PpcAddr32 = true) ∧
    (processOne 1 []
        ⟨[], [dolphinSectionRec 1, ⟨0, 1, 0, 0⟩], [⟨0, 16⟩], some 0, some 1, 0⟩
        ⟨1, 0x20000, 0, 0, 4, .PpcAddr32⟩ =
      .ok ⟨recordsBytes [dolphinNopRec, dolphinNopRec, ⟨2, 1, 0, 4⟩],
        [dolphinSectionRec 1, ⟨0, 1, 0, 0⟩, dolphinNopRec, dolphinNopRec, ⟨2, 1, 0, 4⟩],
        [⟨0, 16⟩], some 0, some 1, 0x20000⟩ ∧
      (2 : Nat) ≤ 0xFFFF) :=
  ⟨⟨by decide, by decide⟩, by
    have h := c7_long_jump_padding 1 []
      ⟨[], [dolphinSectionRec 1, ⟨0, 1, 0, 0⟩], [⟨0, 16⟩], some 0, some 1, 0⟩
      ⟨1, 0x20000, 0, 0, 4, .PpcAddr32⟩ (by decide) rfl rfl (by decide)
    refine ⟨?_, ?_⟩
    · rw [h.1]
      decide
    · exact h.2⟩

/-- C3 (code_bug evidence): aborts are reachable.  For an ELF whose
`_prolog` symbol exists but has no defining section, `elf2rel` hits
`prolog.section_index().unwrap()` and aborts instead of returning an error
value; likewise `statically_apply_relocation` hits
`section_offsets.get(&dest_section).unwrap()` for an intra-module
`PpcRel32` relocation whose destination section was excluded from the
output (not in `section_offsets`). -/
theorem c3_panic_reachable :
    elf2rel
        ⟨[⟨1, some ".text", .text, 4, 4, .ok [72, 0, 0, 5], []⟩],
         [⟨"_prolog", .undefined, 0⟩, ⟨"_epilog", .defined 1, 0⟩,
          ⟨"_unresolved", .defined 1, 0⟩]⟩
        "" 1 .V1 = .panicked "called Option.unwrap on a None value" ∧
    statically_apply_relocation (List.replicate 80 0) [(1, 64)]
        ⟨1, 0, 1, 2, 0, .PpcRel32⟩ =
      .panicked "called Option.unwrap on a None value" := by
  refine ⟨?_, ?_⟩ <;> decide

/-! ### GCI packer lemmas and claims -/

theorem strBytes_length (s : String) : (strBytes s).length = s.length := by
  rw [strBytes, List.length_map]
  rfl

theorem str_to_padded_array_length (n : Nat) (s : String) (h : s.length ≤ n) :
    (str_to_padded_array n s).length = n := by
  rw [str_to_padded_array, List.length_append, List.length_replicate, strBytes_length]
  omega

theorem validate_str_ok (s : String) (k : String) (m : Nat)
    (h : validate_str s k m = .ok ()) : s.length ≤ m := by
  unfold validate_str at h
  split at h
  · exact absurd h (by simp)
  · split at h
    · exact absurd h (by simp)
    · omega

theorem validate_ok_facts (fn t d : String) (banner icon : List Nat) (gc : String)
    (h : validate fn t d banner icon gc = .ok ()) :
    gc.length = 6 ∧ fn.length ≤ 0x20 ∧ t.length ≤ 0x20 ∧ d.length ≤ 0x20 ∧
    banner.length = 0x1800 ∧ icon.length = 0x800 := by
  unfold validate at h
  split at h
  · exact absurd h (by simp)
  case isFalse hgc =>
    repeat' split at h
    all_goals try (solve | simp at h)
    all_goals
      (rename_i x1 hv1 x2 hv2 x3 hv3 x4 hv4 hbanner hicon;
        exact ⟨by omega, validate_str_ok _ _ _ hv1, validate_str_ok _ _ _ hv2,
          validate_str_ok _ _ _ hv3, by omega, by omega⟩)

theorem gciHeaderBytes_length (nowSec : Nat) (gc fn : String) (blocks : Nat)
    (hgc : gc.length = 6) (hfn : fn.length ≤ 0x20) :
    (gciHeaderBytes nowSec gc fn blocks).length = 0x40 := by
  have h1 : ((strBytes gc).take 4).length = 4 := by
    rw [List.length_take, strBytes_length, hgc]
    omega
  have h2 : (((strBytes gc).drop 4).take 2).length = 2 := by
    rw [List.length_take, List.length_drop, strBytes_length, hgc]
    omega
  have h3 : (str_to_padded_array 0x20 fn).length = 0x20 :=
    str_to_padded_array_length 0x20 fn hfn
  simp only [gciHeaderBytes, List.length_append, h1, h2, h3, be16, be32,
    List.length_cons, List.length_nil]

theorem gciFileMetadataBytes_length (banner icon : List Nat) (t d : String)
    (fileLen : Nat) (hb : banner.length = 0x1800) (hi : icon.length = 0x800)
    (ht : t.length ≤ 0x20) (hd : d.length ≤ 0x20) :
    (gciFileMetadataBytes banner icon t d fileLen).length = 0x2200 := by
  have h1 : (str_to_padded_array 0x20 t).length = 0x20 :=
    str_to_padded_array_length 0x20 t ht
  have h2 : (str_to_padded_array 0x20 d).length = 0x20 :=
    str_to_padded_array_length 0x20 d hd
  simp only [gciFileMetadataBytes, List.length_append, hb, hi, h1, h2, be32,
    List.length_cons, List.length_nil, List.length_replicate]

/-- C4 (amended): for every input accepted by validation, the output of
`gcipack` is exactly the 0x40-byte header, followed by the 0x2200-byte
metadata block (banner, icon, title, description, file_size, padding),
followed by the payload, followed by a zero fill such that payload plus
fill is a multiple of 0x2000 bytes, with nothing else. -/
theorem c4_layout_amended (nowSec : Nat) (file : List Nat) (fn t d : String)
    (banner icon : List Nat) (gc : String)
    (hok : validate fn t d banner icon gc = .ok ()) :
    ∃ padLen,
      gcipack nowSec file fn t d banner icon gc =
        .ok (gciHeaderBytes nowSec gc fn ((0x2200 + file.length + 0x2000 - 1) / 0x2000) ++
          gciFileMetadataBytes banner icon t d file.length ++ file ++
          List.replicate padLen 0) ∧
      (gciHeaderBytes nowSec gc fn
        ((0x2200 + file.length + 0x2000 - 1) / 0x2000)).length = 0x40 ∧
      (gciFileMetadataBytes banner icon t d file.length).length = 0x2200 ∧
      (file.length + padLen) % 0x2000 = 0 := by
  obtain ⟨hgc, hfn, ht, hd, hb, hi⟩ := validate_ok_facts fn t d banner icon gc hok
  refine ⟨((0x2200 + file.length + 0x2000 - 1) / 0x2000) * 0x2000 - file.length,
    ?_, gciHeaderBytes_length _ _ _ _ hgc hfn,
    gciFileMetadataBytes_length _ _ _ _ _ hb hi ht hd, ?_⟩
  · unfold gcipack
    rw [hok]
    rfl
  · omega

theorem be16_length (n : Nat) : (be16 n).length = 2 := rfl

theorem be32_length (n : Nat) : (be32 n).length = 4 := rfl

/-- Shared concrete fact: the small example metadata passes validation. -/
theorem validate_example_ok :
    validate "n" "t" "d" (List.replicate 0x1800 0xAB) (List.replicate 0x800 0xCD)
      "GAMEC0" = .ok () := by
  have hb : (List.replicate 0x1800 (0xAB : Nat)).length = 0x1800 :=
    List.length_replicate _ _
  have hi : (List.replicate 0x800 (0xCD : Nat)).length = 0x800 :=
    List.length_replicate _ _
  have h0 : ("GAMEC0".length : Nat) = 6 := by decide
  have h1 : validate_str "n" "file name" 0x20 = Except.ok () := by decide
  have h2 : validate_str "t" "title" 0x20 = Except.ok () := by decide
  have h3 : validate_str "d" "description" 0x20 = Except.ok () := by decide
  have h4 : validate_str "GAMEC0" "game code" 6 = Except.ok () := by decide
  simp only [validate, h0, h1, h2, h3, h4, hb, hi]
  norm_num

/-- Slice extraction through a three-part decomposition. -/
theorem slice_of_decomp {α : Type} (out P M S : List α) (n k : Nat)
    (hdecomp : out = P ++ (M ++ S)) (hP : P.length = n) (hM : M.length = k) :
    (out.drop n).take k = M := by
  rw [hdecomp, ← hP, List.drop_left, ← hM, List.take_left]

theorem c4_layout_amended_witness :
    validate "n" "t" "d" (List.replicate 0x1800 0xAB) (List.replicate 0x800 0xCD)
      "GAMEC0" = .ok () ∧
    (∃ padLen,
      gcipack 0 [1] "n" "t" "d" (List.replicate 0x1800 0xAB)
          (List.replicate 0x800 0xCD) "GAMEC0" =
        .ok (gciHeaderBytes 0 "GAMEC0" "n"
            ((0x2200 + [1].length + 0x2000 - 1) / 0x2000) ++
          gciFileMetadataBytes (List.replicate 0x1800 0xAB)
            (List.replicate 0x800 0xCD) "t" "d" [1].length ++ [1] ++
          List.replicate padLen 0) ∧
      (gciHeaderBytes 0 "GAMEC0" "n"
        ((0x2200 + [1].length + 0x2000 - 1) / 0x2000)).length = 0x40 ∧
      (gciFileMetadataBytes (List.replicate 0x1800 0xAB)
        (List.replicate 0x800 0xCD) "t" "d" [1].length).length = 0x2200 ∧
      ([1].length + padLen) % 0x2000 = 0) :=
  ⟨validate_example_ok, c4_layout_amended 0 [1] "n" "t" "d"
    (List.replicate 0x1800 0xAB) (List.replicate 0x800 0xCD) "GAMEC0"
    validate_example_ok⟩

/-- C4 (counterexample): for the 1-byte payload `[1]`, the packed output's
byte at offset 0x240 is a banner byte (0xAB), not the payload byte the
claimed layout (0x40-byte header + 0x200-byte metadata block + payload)
would place there: no decomposition into a 0x40-byte header, a 0x200-byte
metadata block and payload-plus-zero-fill exists. -/
theorem c4_counterexample :
    (gcipack 0 [1] "n" "t" "d" (List.replicate 0x1800 0xAB)
      (List.replicate 0x800 0xCD) "GAMEC0").isOk = true ∧
    ¬ gciClaimLayout (okBytes (gcipack 0 [1] "n" "t" "d"
      (List.replicate 0x1800 0xAB) (List.replicate 0x800 0xCD) "GAMEC0")) [1] := by
  have hout : okBytes (gcipack 0 [1] "n" "t" "d" (List.replicate 0x1800 0xAB)
      (List.replicate 0x800 0xCD) "GAMEC0") =
      gciHeaderBytes 0 "GAMEC0" "n" ((0x2200 + [1].length + 0x2000 - 1) / 0x2000) ++
        gciFileMetadataBytes (List.replicate 0x1800 0xAB)
          (List.replicate 0x800 0xCD) "t" "d" [1].length ++
        [1] ++ List.replicate
          (((0x2200 + [1].length + 0x2000 - 1) / 0x2000) * 0x2000 - [1].length) 0 := by
    unfold okBytes gcipack
    rw [validate_example_ok]
    rfl
  have hH : (gciHeaderBytes 0 "GAMEC0" "n"
      ((0x2200 + [1].length + 0x2000 - 1) / 0x2000)).length = 64 := by decide
  have hbyte : (okBytes (gcipack 0 [1] "n" "t" "d" (List.replicate 0x1800 0xAB)
      (List.replicate 0x800 0xCD) "GAMEC0"))[0x240]? = some 0xAB := by
    rw [hout]
    unfold gciFileMetadataBytes
    simp only [List.append_assoc]
    rw [List.getElem?_append_right (by rw [hH]; omega), hH]
    rw [List.getElem?_append_left (by rw [List.length_replicate]; omega)]
    rw [List.getElem?_replicate]
    decide
  refine ⟨?_, ?_⟩
  · unfold gcipack
    rw [validate_example_ok]
    rfl
  · rintro ⟨hdr, meta, rest, heq, hh, hm, padding, hrest, hz, hmod2⟩
    have hcontr : (okBytes (gcipack 0 [1] "n" "t" "d" (List.replicate 0x1800 0xAB)
        (List.replicate 0x800 0xCD) "GAMEC0"))[0x240]? = some 1 := by
      rw [heq]
      have hsplit : (hdr ++ meta ++ rest)[(0x240 : Nat)]? =
          rest[0x240 - (hdr ++ meta).length]? :=
        List.getElem?_append_right (by rw [List.length_append, hh, hm])
      have hidx : (0x240 : Nat) - (64 + 512) = 0 := by norm_num
      rw [hsplit, List.length_append, hh, hm, hidx, hrest]
      simp only [List.cons_append, List.nil_append, List.getElem?_cons_zero]
    rw [hbyte] at hcontr
    exact absurd hcontr (by decide)

/-- C9 (counterexample): for a payload of 0x1FFFDE00 zero bytes the true
block count is `ceil((0x2200 + len) / 0x2000) = 0x10000`, but the 16-bit
`block_count` field written at header offset 56 holds
`0x10000 mod 2^16 = 0` (bytes `00 00`), not the claimed ceiling value. -/
theorem c9_counterexample :
    (okBytes (gcipack 0 (List.replicate 0x1FFFDE00 0) "n" "t" "d"
      (List.replicate 0x1800 0xAB) (List.replicate 0x800 0xCD) "GAMEC0"))[56]? = some 0 ∧
    (okBytes (gcipack 0 (List.replicate 0x1FFFDE00 0) "n" "t" "d"
      (List.replicate 0x1800 0xAB) (List.replicate 0x800 0xCD) "GAMEC0"))[57]? = some 0 ∧
    (0x2200 + (List.replicate 0x1FFFDE00 (0 : Nat)).length + 0x2000 - 1) / 0x2000 =
      0x10000 ∧
    decodeBe16 0 0 ≠ 0x10000 := by
  have hlen : (List.replicate 0x1FFFDE00 (0 : Nat)).length = 0x1FFFDE00 :=
    List.length_replicate _ _
  have hout : okBytes (gcipack 0 (List.replicate 0x1FFFDE00 0) "n" "t" "d"
      (List.replicate 0x1800 0xAB) (List.replicate 0x800 0xCD) "GAMEC0") =
      gciHeaderBytes 0 "GAMEC0" "n"
        ((0x2200 + (List.replicate 0x1FFFDE00 (0 : Nat)).length + 0x2000 - 1) / 0x2000) ++
        gciFileMetadataBytes (List.replicate 0x1800 0xAB) (List.replicate 0x800 0xCD)
          "t" "d" (List.replicate 0x1FFFDE00 (0 : Nat)).length ++
        List.replicate 0x1FFFDE00 0 ++
        List.replicate
          (((0x2200 + (List.replicate 0x1FFFDE00 (0 : Nat)).length + 0x2000 - 1) / 0x2000)
            * 0x2000 - (List.replicate 0x1FFFDE00 (0 : Nat)).length) 0 := by
    unfold okBytes gcipack
    rw [validate_example_ok]
    rfl
  have hB : (0x2200 + (List.replicate 0x1FFFDE00 (0 : Nat)).length + 0x2000 - 1) / 0x2000 =
      0x10000 := by
    rw [hlen]
  have hH : (gciHeaderBytes 0 "GAMEC0" "n" 0x10000).length = 64 := by decide
  have h56 : (gciHeaderBytes 0 "GAMEC0" "n" 0x10000)[(56 : Nat)]? = some 0 := by decide
  have h57 : (gciHeaderBytes 0 "GAMEC0" "n" 0x10000)[(57 : Nat)]? = some 0 := by decide
  refine ⟨?_, ?_, hB, by decide⟩
  · rw [hout, hB]
    simp only [List.append_assoc]
    rw [List.getElem?_append_left (by rw [hH]; omega)]
    exact h56
  · rw [hout, hB]
    simp only [List.append_assoc]
    rw [List.getElem?_append_left (by rw [hH]; omega)]
    exact h57

/-- C9 (amended): for every input accepted by validation, the `block_count`
field (bytes 56–57 of the output, big-endian) holds
`ceil((0x2200 + len) / 0x2000) mod 2^16` — the block count truncated by the
`as u16` cast — and the `file_size` field (bytes 0x2080–0x2083, big-endian)
holds the payload length truncated to 32 bits. -/
theorem c9_header_fields_amended (nowSec : Nat) (file : List Nat) (fn t d : String)
    (banner icon : List Nat) (gc : String)
    (hok : validate fn t d banner icon gc = .ok ()) :
    ∃ out, gcipack nowSec file fn t d banner icon gc = .ok out ∧
      (out.drop 56).take 2 =
        be16 (((0x2200 + file.length + 0x2000 - 1) / 0x2000) % 2^16) ∧
      (out.drop 0x2080).take 4 = be32 (file.length % 2^32) := by
  obtain ⟨hgc, hfn, ht, hd, hb, hi⟩ := validate_ok_facts fn t d banner icon gc hok
  have h1 : ((strBytes gc).take 4).length = 4 := by
    rw [List.length_take, strBytes_length, hgc]
    omega
  have h2 : (((strBytes gc).drop 4).take 2).length = 2 := by
    rw [List.length_take, List.length_drop, strBytes_length, hgc]
    omega
  have h3 : (str_to_padded_array 0x20 fn).length = 0x20 :=
    str_to_padded_array_length 0x20 fn hfn
  refine ⟨generate_gci nowSec file fn t d banner icon gc, ?_, ?_, ?_⟩
  · unfold gcipack
    rw [hok]
  · refine slice_of_decomp _
      ((strBytes gc).take 4 ++ ((strBytes gc).drop 4).take 2 ++ [0xff] ++ [2] ++
        str_to_padded_array 0x20 fn ++ be32 (nowSec % 2^32) ++ be32 0 ++ be16 2 ++
        be16 3 ++ [4] ++ [0] ++ be16 0)
      (be16 (((0x2200 + file.length + 0x2000 - 1) / 0x2000) % 2^16))
      (be16 0xff ++ (be32 (0x1800 + 0x800) ++
        (gciFileMetadataBytes banner icon t d file.length ++
          (file ++ List.replicate
            (((0x2200 + file.length + 0x2000 - 1) / 0x2000) * 0x2000 - file.length) 0))))
      56 2 ?_ ?_ (be16_length _)
    · simp only [generate_gci, gciHeaderBytes, List.append_assoc]
    · simp only [List.length_append, h1, h2, h3, be16_length, be32_length,
        List.length_cons, List.length_nil]
  · refine slice_of_decomp _
      (gciHeaderBytes nowSec gc fn ((0x2200 + file.length + 0x2000 - 1) / 0x2000) ++
        banner ++ icon ++ str_to_padded_array 0x20 t ++ str_to_padded_array 0x20 d)
      (be32 (file.length % 2^32))
      (List.replicate 0x1BC 0 ++
        (file ++ List.replicate
          (((0x2200 + file.length + 0x2000 - 1) / 0x2000) * 0x2000 - file.length) 0))
      0x2080 4 ?_ ?_ (be32_length _)
    · simp only [generate_gci, gciFileMetadataBytes, List.append_assoc]
    · rw [List.length_append, List.length_append, List.length_append,
        List.length_append, gciHeaderBytes_length nowSec gc fn _ hgc hfn, hb, hi,
        str_to_padded_array_length 0x20 t ht, str_to_padded_array_length 0x20 d hd]

theorem c9_header_fields_amended_witness :
    validate "n" "t" "d" (List.replicate 0x1800 0xAB) (List.replicate 0x800 0xCD)
      "GAMEC0" = .ok () ∧
    (∃ out, gcipack 0 [1] "n" "t" "d" (List.replicate 0x1800 0xAB)
        (List.replicate 0x800 0xCD) "GAMEC0" = .ok out ∧
      (out.drop 56).take 2 =
        be16 (((0x2200 + [1].length + 0x2000 - 1) / 0x2000) % 2^16) ∧
      (out.drop 0x2080).take 4 = be32 ([1].length % 2^32)) :=
  ⟨validate_example_ok,
    c9_header_fields_amended 0 [1] "n" "t" "d" (List.replicate 0x1800 0xAB)
      (List.replicate 0x800 0xCD) "GAMEC0" validate_example_ok⟩

end GamecubeTools
